import Mathlib

/-!
# The Last Procession — server session engine

A shallow embedding of the server side of the game (`src/server/*.js`):
`RoleManager`, `ShrineManager`, `GameState`, `VotingManager` and the room
handlers of `server.js`, followed by the properties proved about them.

Conventions of the embedding

* A JavaScript `Map` is an insertion-ordered association list (`JsMap`), a
  JavaScript `Set` an insertion-ordered duplicate-free list (`JsSet`).
* Participant ids are socket ids. They are kept abstract (a type `α` with
  decidable equality); socket ids are non-empty strings, hence truthy, so a
  test `if (id)` on a nullable id is a test against `null`.
* JavaScript numbers that are not indices (faith, coordinates, seconds) are
  rationals: floating-point rounding is not modelled.
* `Math.random` and `Date.now` are inputs: the shuffle used by the role
  assignment and the current time are parameters of the functions that read
  them.
* A handler that would dereference a `null` manager (an uncaught `TypeError`)
  returns `none`.
-/

namespace Procession

set_option linter.unusedSectionVars false

/-! ## JavaScript `Map` and `Set` -/

/-- Insertion-ordered association list standing for a JavaScript `Map`. -/
abbrev JsMap (K V : Type) := List (K × V)

namespace JsMap

variable {K V : Type} [DecidableEq K]

/-- Embeds `Map.prototype.get`: the value stored under `k`, `none` for `undefined`. -/
def get : JsMap K V → K → Option V
  | [], _ => none
  | (k', v) :: m, k => if k' = k then some v else get m k

/-- Embeds `Map.prototype.has`. -/
def has (m : JsMap K V) (k : K) : Bool := (get m k).isSome

/-- Embeds `Map.prototype.set`: an existing key keeps its place, a new key is appended. -/
def set : JsMap K V → K → V → JsMap K V
  | [], k, v => [(k, v)]
  | (k', v') :: m, k, v => if k' = k then (k, v) :: m else (k', v') :: set m k v

/-- Embeds `Map.prototype.delete`. -/
def delete (m : JsMap K V) (k : K) : JsMap K V := m.filter (fun e => decide (e.1 ≠ k))

/-- Embeds `Map.prototype.keys`, in insertion order. -/
def keys (m : JsMap K V) : List K := m.map Prod.fst

/-- Embeds `Map.prototype.size`. -/
def size (m : JsMap K V) : Nat := m.length

end JsMap

/-- Insertion-ordered duplicate-free list standing for a JavaScript `Set`. -/
abbrev JsSet (K : Type) := List K

namespace JsSet

variable {K : Type} [DecidableEq K]

/-- Embeds `Set.prototype.has`. -/
def has (s : JsSet K) (k : K) : Bool := decide (k ∈ s)

/-- Embeds `Set.prototype.add`. -/
def add (s : JsSet K) (k : K) : JsSet K := if k ∈ s then s else s ++ [k]

/-- Embeds `new Set(iterable)`. -/
def ofList (l : List K) : JsSet K := l.foldl add []

/-- Embeds `Set.prototype.delete`. -/
def delete (s : JsSet K) (k : K) : JsSet K := s.filter (fun e => decide (e ≠ k))

/-- Embeds `Set.prototype.size`. -/
def size (s : JsSet K) : Nat := s.length

end JsSet

/-! ## RoleManager.js -/

/-- The two role strings, `'villager'` and `'hollow'`. -/
inductive Role where
  | villager
  | hollow
  deriving DecidableEq, Repr

/-- Result of `getRoleCounts`. -/
structure RoleCounts where
  villagers : Nat
  hollow : Nat
  deriving DecidableEq, Repr

/-- State of a `RoleManager`: the `roles` map. -/
structure RoleManager (α : Type) where
  roles : JsMap α Role
  deriving DecidableEq, Repr

namespace RoleManager

variable {α : Type} [DecidableEq α]

/-- The `shuffled.forEach((playerId, index) => roles.set(...))` loop of
`assignRoles`, started at position `index`. -/
def assignLoop : JsMap α Role → List α → Nat → JsMap α Role
  | roles, [], _ => roles
  | roles, playerId :: rest, index =>
    assignLoop (roles.set playerId (if index = 0 then Role.hollow else Role.villager)) rest (index + 1)

/-- Embeds `assignRoles(playerIds)`. The random sort
`[...playerIds].sort(() => Math.random() - 0.5)` is the parameter `shuffle`. -/
def assignRoles (rm : RoleManager α) (shuffle : List α → List α) (playerIds : List α) :
    RoleManager α :=
  let shuffled := shuffle playerIds
  { roles := assignLoop rm.roles shuffled 0 }

/-- The constructor: an empty map, then `assignRoles(playerIds)`. -/
def new (shuffle : List α → List α) (playerIds : List α) : RoleManager α :=
  assignRoles { roles := [] } shuffle playerIds

/-- Embeds `getRole(playerId)`: `roles.get(playerId) || 'villager'`. -/
def getRole (rm : RoleManager α) (playerId : α) : Role :=
  (rm.roles.get playerId).getD Role.villager

/-- Embeds `isHollow(playerId)`. -/
def isHollow (rm : RoleManager α) (playerId : α) : Bool :=
  decide (rm.roles.get playerId = some Role.hollow)

/-- Embeds `getHollowId()`: the first entry whose role is `'hollow'`, else `null`. -/
def getHollowId (rm : RoleManager α) : Option α :=
  (rm.roles.find? (fun e => decide (e.2 = Role.hollow))).map Prod.fst

/-- Embeds `getAllRoles()`. -/
def getAllRoles (rm : RoleManager α) : JsMap α Role := rm.roles

/-- Embeds `getRoleCounts()`. -/
def getRoleCounts (rm : RoleManager α) : RoleCounts :=
  rm.roles.foldl
    (fun c e => if e.2 = Role.hollow then { c with hollow := c.hollow + 1 }
                else { c with villagers := c.villagers + 1 })
    { villagers := 0, hollow := 0 }

end RoleManager

/-! ## ShrineManager.js -/

/-- A point `{x, y, z}`. -/
structure Vec3 where
  x : ℚ
  y : ℚ
  z : ℚ
  deriving DecidableEq

/-- One shrine record of `ShrineManager.shrines`. -/
structure Shrine (α : Type) where
  id : Nat
  name : String
  position : Vec3
  lit : Bool
  valid : Bool
  litBy : Option α
  deriving DecidableEq

/-- Entry of `getPublicState()`. -/
structure PublicShrine where
  id : Nat
  name : String
  position : Vec3
  lit : Bool
  deriving DecidableEq

/-- Entry of `getTrueState()`. -/
structure TrueShrine (α : Type) where
  id : Nat
  name : String
  lit : Bool
  valid : Bool
  litBy : Option α
  deriving DecidableEq

/-- Return value of `lightShrine`. -/
inductive LightResult where
  | ok (shrineId : Int) (valid : Bool)
  | error (msg : String)
  deriving DecidableEq

/-- The `success` field of the object `lightShrine` returns. -/
def LightResult.success : LightResult → Bool
  | LightResult.ok _ _ => true
  | LightResult.error _ => false

/-- State of a `ShrineManager`: the `shrines` array. -/
structure ShrineManager (α : Type) where
  shrines : List (Shrine α)
  deriving DecidableEq

/-- Result of `getShrineStatus()`. -/
structure ShrineStatus where
  lit : Nat
  valid : Nat
  total : Nat
  deriving DecidableEq

namespace ShrineManager

variable {α : Type}

/-- The constructor: seven unlit shrines. -/
def new : ShrineManager α :=
  { shrines := [
      { id := 0, name := "Church", position := ⟨-20, 0, 0⟩, lit := false, valid := false, litBy := none },
      { id := 1, name := "Well", position := ⟨0, 0, 20⟩, lit := false, valid := false, litBy := none },
      { id := 2, name := "Mill", position := ⟨20, 0, 0⟩, lit := false, valid := false, litBy := none },
      { id := 3, name := "Graveyard", position := ⟨0, 0, -20⟩, lit := false, valid := false, litBy := none },
      { id := 4, name := "Forest Left", position := ⟨-30, 0, 30⟩, lit := false, valid := false, litBy := none },
      { id := 5, name := "Forest Right", position := ⟨30, 0, 30⟩, lit := false, valid := false, litBy := none },
      { id := 6, name := "Hilltop Altar", position := ⟨0, 5, 50⟩, lit := false, valid := false, litBy := none } ] }

/-- The array read `this.shrines[shrineId]`: `none` (`undefined`) for an index
that is negative or past the end. -/
def getShrine (sm : ShrineManager α) (shrineId : Int) : Option (Shrine α) :=
  if 0 ≤ shrineId then sm.shrines[shrineId.toNat]? else none

/-- Embeds `lightShrine(shrineId, playerId, role)`: the result and the state after
the call. The record is updated in place (`List.set` at the index). -/
def lightShrine (sm : ShrineManager α) (shrineId : Int) (playerId : α) (role : Role) :
    LightResult × ShrineManager α :=
  match sm.getShrine shrineId with
  | none => (LightResult.error "Invalid shrine", sm)
  | some shrine =>
    if shrine.lit then (LightResult.error "Shrine already lit", sm)
    else
      let shrine1 := { shrine with lit := true, litBy := some playerId }
      let shrine2 : Shrine α :=
        if role = Role.villager then { shrine1 with valid := true }
        else { shrine1 with valid := false }
      (LightResult.ok shrineId shrine2.valid,
        { shrines := sm.shrines.set shrineId.toNat shrine2 })

/-- Embeds `getPublicState()`. -/
def getPublicState (sm : ShrineManager α) : List PublicShrine :=
  sm.shrines.map (fun shrine =>
    { id := shrine.id, name := shrine.name, position := shrine.position, lit := shrine.lit })

/-- Embeds `getTrueState()`. -/
def getTrueState (sm : ShrineManager α) : List (TrueShrine α) :=
  sm.shrines.map (fun shrine =>
    { id := shrine.id, name := shrine.name, lit := shrine.lit, valid := shrine.valid,
      litBy := shrine.litBy })

/-- Embeds `isRitualComplete()`: `shrines.every(shrine => shrine.valid)`. -/
def isRitualComplete (sm : ShrineManager α) : Bool :=
  sm.shrines.all (fun shrine => shrine.valid)

/-- Embeds `getShrineStatus()`. -/
def getShrineStatus (sm : ShrineManager α) : ShrineStatus :=
  { lit := sm.shrines.countP (fun shrine => shrine.lit),
    valid := sm.shrines.countP (fun shrine => shrine.valid),
    total := sm.shrines.length }

/-- Embeds `getAltarPosition()`: `this.shrines[6].position`. -/
def getAltarPosition (sm : ShrineManager α) : Option Vec3 :=
  (sm.shrines[6]?).map (fun shrine => shrine.position)

/-- Embeds `getNearbyShrine(position, maxDistance)`: the first shrine of the array whose
horizontal distance is at most `maxDistance`. `sqrt(d2) <= m` is decided on the
squares: it holds iff `0 <= m` and `d2 <= m * m`. -/
def getNearbyShrine (sm : ShrineManager α) (position : Vec3) (maxDistance : ℚ := 3) :
    Option (Shrine α) :=
  sm.shrines.find? (fun shrine =>
    let dx := position.x - shrine.position.x
    let dz := position.z - shrine.position.z
    decide (0 ≤ maxDistance ∧ dx * dx + dz * dz ≤ maxDistance * maxDistance))

end ShrineManager

/-- One `lightShrine` call: the arguments `(shrineId, playerId, role)`. -/
structure LightCall (α : Type) where
  shrineId : Int
  playerId : α
  role : Role
  deriving DecidableEq

namespace ShrineManager

variable {α : Type}

/-- The state after a sequence of `lightShrine` calls. -/
def run (sm : ShrineManager α) : List (LightCall α) → ShrineManager α
  | [] => sm
  | c :: cs => run (sm.lightShrine c.shrineId c.playerId c.role).2 cs

/-- The sequence of calls paired with what each call returned. -/
def trace (sm : ShrineManager α) : List (LightCall α) → List (LightCall α × LightResult)
  | [] => []
  | c :: cs =>
    (c, (sm.lightShrine c.shrineId c.playerId c.role).1) ::
      trace (sm.lightShrine c.shrineId c.playerId c.role).2 cs

end ShrineManager

/-! ## GameState.js -/

/-- A rectangular blessed zone. -/
structure Zone where
  minX : ℚ
  maxX : ℚ
  minZ : ℚ
  maxZ : ℚ
  deriving DecidableEq

/-- The strings `getFaithLevel()` returns. -/
inductive FaithLevel where
  | high
  | medium
  | low
  | critical
  deriving DecidableEq

/-- State of a `GameState`; `startTime` is the `Date.now()` of construction. -/
structure GameState where
  playerCount : Nat
  faith : ℚ
  vesselPlaced : Bool
  startTime : Int
  blessedPaths : List Zone
  deriving DecidableEq

namespace GameState

/-- The constructor, at time `now`. -/
def new (playerCount : Nat) (now : Int) : GameState :=
  { playerCount := playerCount
    faith := 100
    vesselPlaced := false
    startTime := now
    blessedPaths := [
      ⟨-10, 10, -10, 10⟩,
      ⟨-25, -15, -5, 5⟩,
      ⟨-5, 5, 10, 25⟩,
      ⟨15, 25, -5, 5⟩,
      ⟨-5, 5, -25, -10⟩,
      ⟨-35, -20, 10, 35⟩,
      ⟨20, 35, 10, 35⟩,
      ⟨-8, 8, 35, 55⟩ ] }

/-- Embeds `isOnBlessedPath(position)`. -/
def isOnBlessedPath (gs : GameState) (position : Vec3) : Bool :=
  gs.blessedPaths.any (fun path =>
    decide (position.x ≥ path.minX ∧ position.x ≤ path.maxX ∧
      position.z ≥ path.minZ ∧ position.z ≤ path.maxZ))

/-- Embeds `drainFaith(amount)`: the returned value and the state after. -/
def drainFaith (gs : GameState) (amount : ℚ) : ℚ × GameState :=
  let faith := max 0 (gs.faith - amount)
  (faith, { gs with faith := faith })

/-- Embeds `addFaith(amount)`: the returned value and the state after. -/
def addFaith (gs : GameState) (amount : ℚ) : ℚ × GameState :=
  let faith := min 100 (gs.faith + amount)
  (faith, { gs with faith := faith })

/-- Embeds `getFaith()`. -/
def getFaith (gs : GameState) : ℚ := gs.faith

/-- Embeds `isFaithDepleted()`. -/
def isFaithDepleted (gs : GameState) : Bool := decide (gs.faith ≤ 0)

/-- Embeds `getElapsedTime()` at time `now`. -/
def getElapsedTime (gs : GameState) (now : Int) : Int := now - gs.startTime

/-- Embeds `getFaithLevel()`. -/
def getFaithLevel (gs : GameState) : FaithLevel :=
  if gs.faith ≥ 70 then FaithLevel.high
  else if gs.faith ≥ 40 then FaithLevel.medium
  else if gs.faith ≥ 20 then FaithLevel.low
  else FaithLevel.critical

end GameState

/-! ## VotingManager.js -/

/-- State of a `VotingManager`: the eligible set `playerIds`, the ballots
`votes` (voter to target, `none` for the skip ballot `null`) and the flag. -/
structure VotingManager (α : Type) where
  playerIds : JsSet α
  votes : JsMap α (Option α)
  isVotingActive : Bool
  deriving DecidableEq

/-- Return value of `castVote`. -/
inductive CastResult where
  | ok
  | error (msg : String)
  deriving DecidableEq

/-- The object `resolveVotes` returns. -/
structure VoteOutcome (α : Type) where
  votes : JsMap α (Option α)
  exiled : Option α
  tie : Bool
  skipVotes : Nat
  voteCounts : JsMap α Nat
  deriving DecidableEq

/-- The three variables `maxVotes`, `exiled`, `tie` of the second loop of
`resolveVotes`. -/
structure Tally (α : Type) where
  maxVotes : Nat
  exiled : Option α
  tie : Bool
  deriving DecidableEq

namespace VotingManager

variable {α : Type} [DecidableEq α]

/-- The constructor. -/
def new (playerIds : List α) : VotingManager α :=
  { playerIds := JsSet.ofList playerIds, votes := [], isVotingActive := false }

/-- Embeds `startVoting()`. -/
def startVoting (vm : VotingManager α) : VotingManager α :=
  { vm with votes := [], isVotingActive := true }

/-- Embeds `castVote(voterId, targetId)`: the result and the state after. -/
def castVote (vm : VotingManager α) (voterId : α) (targetId : Option α) :
    CastResult × VotingManager α :=
  if !vm.isVotingActive then (CastResult.error "Voting not active", vm)
  else if !vm.playerIds.has voterId then (CastResult.error "Invalid voter", vm)
  else if (match targetId with
            | some t => !vm.playerIds.has t
            | none => false) then
    (CastResult.error "Invalid target", vm)
  else if targetId = some voterId then (CastResult.error "Cannot vote for yourself", vm)
  else (CastResult.ok, { vm with votes := vm.votes.set voterId targetId })

/-- Embeds `allVotesIn()`. -/
def allVotesIn (vm : VotingManager α) : Bool :=
  decide (vm.votes.size ≥ vm.playerIds.size)

/-- Embeds `getRemainingVotes()`. -/
def getRemainingVotes (vm : VotingManager α) : Int :=
  (vm.playerIds.size : Int) - (vm.votes.size : Int)

/-- First loop of `resolveVotes`, one ballot: count a skip ballot or add one to
the target's entry of `voteCounts`. The state is `(voteCounts, skipVotes)`. -/
def countBallot (acc : JsMap α Nat × Nat) (ballot : α × Option α) : JsMap α Nat × Nat :=
  match ballot.2 with
  | none => (acc.1, acc.2 + 1)
  | some targetId => (acc.1.set targetId ((acc.1.get targetId).getD 0 + 1), acc.2)

/-- First loop of `resolveVotes`: `(voteCounts, skipVotes)`. -/
def countVotes (votes : JsMap α (Option α)) : JsMap α Nat × Nat :=
  votes.foldl countBallot ([], 0)

/-- Second loop of `resolveVotes`, one entry of `voteCounts`. -/
def tallyStep (st : Tally α) (entry : α × Nat) : Tally α :=
  let targetId := entry.1
  let count := entry.2
  if count > st.maxVotes then { maxVotes := count, exiled := some targetId, tie := false }
  else if count = st.maxVotes ∧ count > 0 then { st with tie := true }
  else st

/-- Second loop of `resolveVotes`, started from `maxVotes = skipVotes`. -/
def tally (voteCounts : JsMap α Nat) (skipVotes : Nat) : Tally α :=
  voteCounts.foldl tallyStep { maxVotes := skipVotes, exiled := none, tie := false }

/-- Embeds `resolveVotes()`: the returned object and the state after. -/
def resolveVotes (vm : VotingManager α) : VoteOutcome α × VotingManager α :=
  let vm1 := { vm with isVotingActive := false }
  let counted := countVotes vm1.votes
  let voteCounts := counted.1
  let skipVotes := counted.2
  let st := tally voteCounts skipVotes
  let tie := st.tie
  let exiled := if tie then none else st.exiled
  let vm2 :=
    match exiled with
    | some e => { vm1 with playerIds := vm1.playerIds.delete e }
    | none => vm1
  ({ votes := vm2.votes, exiled := exiled, tie := tie, skipVotes := skipVotes,
     voteCounts := voteCounts }, vm2)

/-- Embeds `removePlayer(playerId)`. -/
def removePlayer (vm : VotingManager α) (playerId : α) : VotingManager α :=
  { vm with playerIds := vm.playerIds.delete playerId, votes := vm.votes.delete playerId }

/-- Number of ballots naming `t`. -/
def accusations (votes : JsMap α (Option α)) (t : α) : Nat :=
  votes.countP (fun b => decide (b.2 = some t))

/-- Number of skip ballots. -/
def skips (votes : JsMap α (Option α)) : Nat :=
  votes.countP (fun b => decide (b.2 = none))

end VotingManager

/-! ## server.js -/

/-- The phase strings of a room. -/
inductive Phase where
  | lobby
  | playing
  | voting
  | ended
  deriving DecidableEq

/-- What a participant can carry: `'vessel'`. -/
inductive Item where
  | vessel
  deriving DecidableEq

/-- A participant record of `room.players`. `rotation` is the yaw `{ y }`,
`carrying` is `null` or `'vessel'`, `lastUpdate` is `undefined` until the first
position update. -/
structure Player where
  name : String
  position : Vec3
  rotation : ℚ
  ready : Bool
  carrying : Option Item
  lastUpdate : Option Int
  deriving DecidableEq

/-- Entry of `getPublicPlayerList`. -/
structure PublicPlayer (α : Type) where
  id : α
  name : String
  position : Vec3
  rotation : ℚ
  deriving DecidableEq

/-- The `winner` strings of `gameEnd`. -/
inductive Winner where
  | villagers
  | hollow
  deriving DecidableEq

/-- The reason strings passed to `endGame`. -/
inductive EndReason where
  | timeout
  | ritual_complete
  | hollow_exiled
  | faith_depleted
  | not_enough_players
  deriving DecidableEq

/-- The messages the server emits, one constructor per event name. -/
inductive Msg (α : Type) where
  | joinError (error : String)
  | playerJoined (playerId : α) (playerName : String) (players : List (PublicPlayer α))
  | joinSuccess (roomId : String) (playerId : α) (players : List (PublicPlayer α))
  | playerReadyUpdate (playerId : α) (ready : Bool)
  | gameError (error : String)
  | gameStart (role : Role) (shrines : List PublicShrine) (players : List (PublicPlayer α))
      (duration : Int)
  | timeUpdate (remaining : Int)
  | gameEnd (winner : Winner) (reason : EndReason) (roles : JsMap α Role)
      (shrineStates : List (TrueShrine α))
  | playerMoved (playerId : α) (position : Vec3) (rotation : ℚ)
  | shrineLit (shrineId : Int) (playerId : α)
  | faithUpdate (faith : ℚ)
  | vesselPickedUp (playerId : α)
  | vesselTransferred (fromPlayerId : α) (toPlayerId : α)
  | vesselPlaced (playerId : α)
  | vesselDropped (position : Vec3)
  | playerLeft (playerId : α) (players : List (PublicPlayer α))
  | votingStarted (players : List (PublicPlayer α)) (timeLimit : Int)
  | voteCast (voterId : α) (votesRemaining : Int)
  | votingResult (votes : JsMap α (Option α)) (exiled : Option α) (tie : Bool)
  | youWereExiled
  | votingEnded
  deriving DecidableEq

/-- Where a message goes: `io.to(room.id)` or one socket. -/
inductive Dest (α : Type) where
  | room
  | socket (id : α)
  deriving DecidableEq

/-- An emitted message with its destination. -/
abbrev Out (α : Type) := Dest α × Msg α

/-- A room object. `timer` tells whether `room.timer` holds an interval handle. -/
structure Room (α : Type) where
  id : String
  players : JsMap α Player
  gameState : Option GameState
  roleManager : Option (RoleManager α)
  shrineManager : Option (ShrineManager α)
  votingManager : Option (VotingManager α)
  phase : Phase
  timer : Bool
  startTime : Option Int
  deriving DecidableEq

/-- Return value of `startGame`. -/
inductive StartResult where
  | ok
  | error (msg : String)
  deriving DecidableEq

/-- Embeds `MIN_PLAYERS`. -/
def MIN_PLAYERS : Nat := 3

/-- Embeds `MAX_PLAYERS`. -/
def MAX_PLAYERS : Nat := 6

/-- Embeds `GAME_DURATION`, in milliseconds. -/
def GAME_DURATION : Int := 10 * 60 * 1000

section Handlers

variable {α : Type} [DecidableEq α]

/-- Embeds `createRoom(roomId)`. -/
def createRoom (roomId : String) : Room α :=
  { id := roomId
    players := []
    gameState := none
    roleManager := none
    shrineManager := none
    votingManager := none
    phase := Phase.lobby
    timer := false
    startTime := none }

/-- Embeds `getPublicPlayerList(room)`. -/
def getPublicPlayerList (room : Room α) : List (PublicPlayer α) :=
  room.players.map (fun e =>
    { id := e.1, name := e.2.name, position := e.2.position, rotation := e.2.rotation })

/-- Embeds `startGame(room)` at time `now`, with the random sort `shuffle`; `sockets`
are the ids of the connected sockets (`io.sockets.sockets`). -/
def startGame (room : Room α) (shuffle : List α → List α) (now : Int) (sockets : JsSet α) :
    StartResult × Room α × List (Out α) :=
  if room.players.size < MIN_PLAYERS then
    (StartResult.error "Need at least 3 players", room, [])
  else if room.players.size > MAX_PLAYERS then
    (StartResult.error "Maximum 6 players allowed", room, [])
  else
    let roleManager := RoleManager.new shuffle room.players.keys
    let shrineManager : ShrineManager α := ShrineManager.new
    let room1 : Room α :=
      { room with
        roleManager := some roleManager
        shrineManager := some shrineManager
        gameState := some (GameState.new room.players.size now)
        votingManager := some (VotingManager.new room.players.keys)
        phase := Phase.playing
        startTime := some now
        timer := true }
    let outs : List (Out α) :=
      room1.players.filterMap (fun e =>
        if sockets.has e.1 then
          some (Dest.socket e.1,
            Msg.gameStart (roleManager.getRole e.1) shrineManager.getPublicState
              (getPublicPlayerList room1) GAME_DURATION)
        else none)
    (StartResult.ok, room1, outs)

/-- The `winner` and `reason` that `endGame` puts in `gameEnd`. -/
def endVerdict (sm : ShrineManager α) (reason : EndReason) : Winner × EndReason :=
  match reason with
  | EndReason.ritual_complete => (Winner.villagers, reason)
  | EndReason.hollow_exiled => (Winner.villagers, reason)
  | EndReason.faith_depleted => (Winner.hollow, reason)
  | EndReason.timeout =>
    if sm.isRitualComplete then (Winner.villagers, EndReason.ritual_complete)
    else (Winner.hollow, reason)
  | EndReason.not_enough_players => (Winner.hollow, reason)

/-- The `roles` object `endGame` builds from `room.players`; the role manager
is read once per participant, so an empty room needs none. -/
def revealRoles (room : Room α) : Option (JsMap α Role) :=
  match room.players, room.roleManager with
  | [], _ => some []
  | _ :: _, none => none
  | e :: es, some rm => some ((e :: es).map (fun p => (p.1, rm.getRole p.1)))

/-- Embeds `endGame(room, reason)`. -/
def endGame (room : Room α) (reason : EndReason) : Option (Room α × List (Out α)) :=
  let room1 := { room with timer := false, phase := Phase.ended }
  match room1.shrineManager, revealRoles room1 with
  | some sm, some roles =>
    let verdict := endVerdict sm reason
    some (room1, [(Dest.room, Msg.gameEnd verdict.1 verdict.2 roles sm.getTrueState)])
  | _, _ => none

/-- Embeds `handlePositionUpdate(room, playerId, position, rotation)` at time `now`.
The speed check only logs a warning and is left out. -/
def handlePositionUpdate (room : Room α) (playerId : α) (position : Vec3) (rotation : ℚ)
    (now : Int) : Option (Room α × List (Out α)) :=
  match room.players.get playerId with
  | none => some (room, [])
  | some player =>
    let dt : ℚ := ((now - player.lastUpdate.getD now : Int) : ℚ) / 1000
    let player1 := { player with position := position, rotation := rotation, lastUpdate := some now }
    let room1 := { room with players := room.players.set playerId player1 }
    match room1.gameState with
    | none => none
    | some gs =>
      let onPath := gs.isOnBlessedPath position
      let gs1 := if !onPath ∧ room1.phase = Phase.playing then (gs.drainFaith (2 * dt)).2 else gs
      some ({ room1 with gameState := some gs1 },
        [(Dest.room, Msg.playerMoved playerId position rotation)])

/-- Embeds `handleShrineInteraction(room, playerId, shrineId)`: the returned value
(`none` for `undefined`), the room after and the messages. -/
def handleShrineInteraction (room : Room α) (playerId : α) (shrineId : Int) :
    Option (Option LightResult × Room α × List (Out α)) :=
  if room.phase ≠ Phase.playing then some (none, room, [])
  else
    match room.roleManager, room.shrineManager with
    | some rm, some sm =>
      let role := rm.getRole playerId
      let lit := sm.lightShrine shrineId playerId role
      let result := lit.1
      let room1 := { room with shrineManager := some lit.2 }
      if result.success then
        match room1.gameState with
        | none => none
        | some gs =>
          let gs1 := if role = Role.villager then (gs.addFaith 10).2 else gs
          let room2 := { room1 with gameState := some gs1 }
          let outs : List (Out α) :=
            [(Dest.room, Msg.shrineLit shrineId playerId), (Dest.room, Msg.faithUpdate gs1.faith)]
          if lit.2.isRitualComplete then
            match endGame room2 EndReason.ritual_complete with
            | none => none
            | some (room3, outs3) => some (some result, room3, outs ++ outs3)
          else some (some result, room2, outs)
      else some (some result, room1, [])
    | _, _ => none

/-- Embeds `resolveVoting(room)`; `sockets` are the ids of the connected sockets. -/
def resolveVoting (room : Room α) (sockets : JsSet α) : Option (Room α × List (Out α)) :=
  match room.votingManager with
  | none => none
  | some vm =>
    let resolved := vm.resolveVotes
    let result := resolved.1
    let room1 := { room with votingManager := some resolved.2 }
    let out1 : List (Out α) :=
      [(Dest.room, Msg.votingResult result.votes result.exiled result.tie)]
    match result.exiled with
    | some exiled =>
      match room1.roleManager with
      | none => none
      | some rm =>
        let exiledRole := rm.getRole exiled
        let out2 : List (Out α) :=
          if sockets.has exiled then [(Dest.socket exiled, Msg.youWereExiled)] else []
        let room2 := { room1 with players := room1.players.delete exiled }
        if exiledRole = Role.hollow then
          match endGame room2 EndReason.hollow_exiled with
          | none => none
          | some (room3, outs3) => some (room3, out1 ++ out2 ++ outs3)
        else
          match room2.gameState with
          | none => none
          | some gs =>
            let gs1 := (gs.drainFaith 15).2
            let room3 := { room2 with gameState := some gs1 }
            let out3 : List (Out α) := [(Dest.room, Msg.faithUpdate gs1.faith)]
            if gs1.faith ≤ 0 then
              match endGame room3 EndReason.faith_depleted with
              | none => none
              | some (room4, outs4) => some (room4, out1 ++ out2 ++ out3 ++ outs4)
            else
              some ({ room3 with phase := Phase.playing },
                out1 ++ out2 ++ out3 ++ [(Dest.room, Msg.votingEnded)])
    | none =>
      some ({ room1 with phase := Phase.playing }, out1 ++ [(Dest.room, Msg.votingEnded)])

/-- The callback of the `setInterval` of `startGame`, firing at time `now`. No
such callback exists before the first `startGame` (`startTime` is `null`). -/
def gameTimerTick (room : Room α) (now : Int) : Option (Room α × List (Out α)) :=
  match room.startTime with
  | none => none
  | some startTime =>
    let elapsed := now - startTime
    let remaining := GAME_DURATION - elapsed
    if remaining ≤ 0 then endGame room EndReason.timeout
    else some (room, [(Dest.room, Msg.timeUpdate remaining)])

end Handlers

/-! ### Socket handlers

The state around one room: the room object, the connected sockets whose closure
variable `currentRoom` refers to it, and the deadlines of the pending
`setTimeout` callbacks of `callVote`. A socket whose `currentRoom` is the room
stays so until it disconnects, also after an exile. -/

/-- One room and the connections bound to it. -/
structure Server (α : Type) where
  room : Room α
  joined : JsSet α
  voteTimeouts : List Int
  deriving DecidableEq

section SocketHandlers

variable {α : Type} [DecidableEq α]

/-- A server holding the room `createRoom(roomId)` and no connection. -/
def Server.create (roomId : String) : Server α :=
  { room := createRoom roomId, joined := [], voteTimeouts := [] }

/-- Embeds `socket.on('joinRoom')` for the id of this room. -/
def onJoinRoom (srv : Server α) (socketId : α) (playerName : String) : Server α × List (Out α) :=
  let room := srv.room
  if room.phase ≠ Phase.lobby then
    (srv, [(Dest.socket socketId, Msg.joinError "Game already in progress")])
  else if room.players.size ≥ MAX_PLAYERS then
    (srv, [(Dest.socket socketId, Msg.joinError "Room is full")])
  else
    let room1 :=
      { room with
        players := room.players.set socketId
          { name := playerName, position := ⟨0, 8 / 5, 0⟩, rotation := 0, ready := false,
            carrying := none, lastUpdate := none } }
    ({ srv with room := room1, joined := srv.joined.add socketId },
      [(Dest.room, Msg.playerJoined socketId playerName (getPublicPlayerList room1)),
       (Dest.socket socketId, Msg.joinSuccess room1.id socketId (getPublicPlayerList room1))])

/-- Embeds `socket.on('playerReady')` at time `now`, with the random sort `shuffle`. -/
def onPlayerReady (srv : Server α) (socketId : α) (shuffle : List α → List α) (now : Int) :
    Server α × List (Out α) :=
  if !srv.joined.has socketId then (srv, [])
  else
    match srv.room.players.get socketId with
    | none => (srv, [])
    | some player =>
      let room1 :=
        { srv.room with players := srv.room.players.set socketId { player with ready := true } }
      let out1 : List (Out α) := [(Dest.room, Msg.playerReadyUpdate socketId true)]
      let allReady := room1.players.all (fun e => e.2.ready)
      if allReady ∧ room1.players.size ≥ MIN_PLAYERS then
        let started := startGame room1 shuffle now srv.joined
        match started.1 with
        | StartResult.ok => ({ srv with room := started.2.1 }, out1 ++ started.2.2)
        | StartResult.error msg =>
          ({ srv with room := started.2.1 },
            out1 ++ started.2.2 ++ [(Dest.room, Msg.gameError msg)])
      else ({ srv with room := room1 }, out1)

/-- Embeds `socket.on('position')` at time `now`. -/
def onPosition (srv : Server α) (socketId : α) (position : Vec3) (rotation : ℚ) (now : Int) :
    Option (Server α × List (Out α)) :=
  if srv.joined.has socketId ∧ srv.room.phase = Phase.playing then
    (handlePositionUpdate srv.room socketId position rotation now).map
      (fun r => ({ srv with room := r.1 }, r.2))
  else some (srv, [])

/-- Embeds `socket.on('lightShrine')`. -/
def onLightShrine (srv : Server α) (socketId : α) (shrineId : Int) :
    Option (Server α × List (Out α)) :=
  if srv.joined.has socketId then
    (handleShrineInteraction srv.room socketId shrineId).map
      (fun r => ({ srv with room := r.2.1 }, r.2.2))
  else some (srv, [])

/-- Embeds `socket.on('pickupVessel')`. -/
def onPickupVessel (srv : Server α) (socketId : α) : Server α × List (Out α) :=
  if !srv.joined.has socketId ∨ srv.room.phase ≠ Phase.playing then (srv, [])
  else
    let vesselHolder := srv.room.players.find? (fun e => decide (e.2.carrying = some Item.vessel))
    match vesselHolder, srv.room.players.get socketId with
    | none, some player =>
      ({ srv with
          room := { srv.room with
            players := srv.room.players.set socketId { player with carrying := some Item.vessel } } },
        [(Dest.room, Msg.vesselPickedUp socketId)])
    | _, _ => (srv, [])

/-- Embeds `socket.on('transferVessel')`. -/
def onTransferVessel (srv : Server α) (socketId : α) (targetPlayerId : α) :
    Server α × List (Out α) :=
  if !srv.joined.has socketId ∨ srv.room.phase ≠ Phase.playing then (srv, [])
  else
    match srv.room.players.get socketId, srv.room.players.get targetPlayerId with
    | some player, some target =>
      if player.carrying = some Item.vessel ∧ target.carrying = none then
        let players1 := srv.room.players.set socketId { player with carrying := none }
        let players2 := players1.set targetPlayerId { target with carrying := some Item.vessel }
        ({ srv with room := { srv.room with players := players2 } },
          [(Dest.room, Msg.vesselTransferred socketId targetPlayerId)])
      else (srv, [])
    | _, _ => (srv, [])

/-- Embeds `socket.on('placeVessel')`. `sqrt(d2) < 3` is decided as `d2 < 9`. -/
def onPlaceVessel (srv : Server α) (socketId : α) : Option (Server α × List (Out α)) :=
  if !srv.joined.has socketId ∨ srv.room.phase ≠ Phase.playing then some (srv, [])
  else
    match srv.room.players.get socketId with
    | none => some (srv, [])
    | some player =>
      if player.carrying = some Item.vessel then
        match srv.room.shrineManager with
        | none => none
        | some sm =>
          match sm.getAltarPosition with
          | none => none
          | some altarPos =>
            let dx := player.position.x - altarPos.x
            let dz := player.position.z - altarPos.z
            if dx * dx + dz * dz < 9 then
              match srv.room.gameState with
              | none => none
              | some gs =>
                let room1 :=
                  { srv.room with
                    players := srv.room.players.set socketId { player with carrying := none }
                    gameState := some { gs with vesselPlaced := true } }
                let out1 : List (Out α) := [(Dest.room, Msg.vesselPlaced socketId)]
                if sm.isRitualComplete then
                  (endGame room1 EndReason.ritual_complete).map
                    (fun r => ({ srv with room := r.1 }, out1 ++ r.2))
                else some ({ srv with room := room1 }, out1)
            else some (srv, [])
      else some (srv, [])

/-- Embeds `socket.on('callVote')` at time `now`: the timeout is due at `now + 30000`. -/
def onCallVote (srv : Server α) (socketId : α) (now : Int) : Option (Server α × List (Out α)) :=
  if !srv.joined.has socketId ∨ srv.room.phase ≠ Phase.playing then some (srv, [])
  else
    match srv.room.votingManager with
    | none => none
    | some vm =>
      let room1 :=
        { srv.room with phase := Phase.voting, votingManager := some vm.startVoting }
      some ({ srv with room := room1, voteTimeouts := srv.voteTimeouts ++ [now + 30000] },
        [(Dest.room, Msg.votingStarted (getPublicPlayerList room1) 30000)])

/-- Embeds `socket.on('castVote')`. -/
def onCastVote (srv : Server α) (socketId : α) (targetPlayerId : Option α) :
    Option (Server α × List (Out α)) :=
  if !srv.joined.has socketId ∨ srv.room.phase ≠ Phase.voting then some (srv, [])
  else
    match srv.room.votingManager with
    | none => none
    | some vm =>
      let vm1 := (vm.castVote socketId targetPlayerId).2
      let room1 := { srv.room with votingManager := some vm1 }
      let out1 : List (Out α) := [(Dest.room, Msg.voteCast socketId vm1.getRemainingVotes)]
      if vm1.allVotesIn then
        (resolveVoting room1 srv.joined).map (fun r => ({ srv with room := r.1 }, out1 ++ r.2))
      else some ({ srv with room := room1 }, out1)

/-- The callback of the `setTimeout` of `callVote`: the oldest pending one,
firing at time `now`, not before it is due. -/
def onVoteTimeout (srv : Server α) (now : Int) : Option (Server α × List (Out α)) :=
  match srv.voteTimeouts with
  | [] => none
  | due :: rest =>
    if now < due then none
    else
      let srv1 := { srv with voteTimeouts := rest }
      if srv1.room.phase = Phase.voting then
        (resolveVoting srv1.room srv1.joined).map (fun r => ({ srv1 with room := r.1 }, r.2))
      else some (srv1, [])

/-- The interval callback of the room, firing at time `now`. -/
def onTimerTick (srv : Server α) (now : Int) : Option (Server α × List (Out α)) :=
  (gameTimerTick srv.room now).map (fun r => ({ srv with room := r.1 }, r.2))

/-- Embeds `socket.on('disconnect')`. The socket is gone afterwards. Deleting an
empty room from the registry `rooms` leaves the room object as it is. -/
def onDisconnect (srv : Server α) (socketId : α) : Option (Server α × List (Out α)) :=
  if srv.joined.has socketId then
    let player := srv.room.players.get socketId
    let room1 := { srv.room with players := srv.room.players.delete socketId }
    let out1 : List (Out α) :=
      match player with
      | some p =>
        if p.carrying = some Item.vessel then [(Dest.room, Msg.vesselDropped p.position)] else []
      | none => []
    let out2 : List (Out α) := [(Dest.room, Msg.playerLeft socketId (getPublicPlayerList room1))]
    let joined1 := srv.joined.delete socketId
    if room1.phase = Phase.playing ∧ room1.players.size < 2 then
      (endGame room1 EndReason.not_enough_players).map
        (fun r => ({ srv with room := r.1, joined := joined1 }, out1 ++ out2 ++ r.2))
    else some ({ srv with room := room1, joined := joined1 }, out1 ++ out2)
  else some (srv, [])

end SocketHandlers

/-! ## Example sessions

Concrete states, with natural numbers as socket ids, at which the properties
below are evaluated. -/

namespace Example

/-- A vote round over the eligible ids 1, 2, 3 in which 1 accuses 2, 3 skips
and 2 casts no ballot. -/
def ballotsOneAccusationOneSkip : VotingManager Nat :=
  (((VotingManager.new [1, 2, 3]).startVoting.castVote 1 (some 2)).2.castVote 3 none).2

/-- Three sockets have joined the room `ABCD`; nobody is ready yet. -/
def lobby : Server Nat :=
  (onJoinRoom (onJoinRoom (onJoinRoom (Server.create "ABCD") 1 "Ana").1 2 "Ben").1 3 "Cy").1

/-- All three are ready: the game has started at time 0. The shuffle leaves the
list as it is, so participant 1 is the hollow. -/
def playing : Server Nat :=
  (onPlayerReady (onPlayerReady (onPlayerReady lobby 1 id 0).1 2 id 0).1 3 id 0).1

/-- The room of `playing`, spelled out. -/
def playingRoom : Room Nat :=
  { id := "ABCD"
    players := [
      (1, { name := "Ana", position := ⟨0, 8 / 5, 0⟩, rotation := 0, ready := true,
            carrying := none, lastUpdate := none }),
      (2, { name := "Ben", position := ⟨0, 8 / 5, 0⟩, rotation := 0, ready := true,
            carrying := none, lastUpdate := none }),
      (3, { name := "Cy", position := ⟨0, 8 / 5, 0⟩, rotation := 0, ready := true,
            carrying := none, lastUpdate := none }) ]
    gameState := some (GameState.new 3 0)
    roleManager := some { roles := [(1, Role.hollow), (2, Role.villager), (3, Role.villager)] }
    shrineManager := some ShrineManager.new
    votingManager := some (VotingManager.new [1, 2, 3])
    phase := Phase.playing
    timer := true
    startTime := some 0 }

/-- The room of `playing` with the faith pool at `faith`. -/
def roomWithFaith (faith : ℚ) : Room Nat :=
  { playingRoom with gameState := some { GameState.new 3 0 with faith := faith } }

/-- The room `roomWithFaith faith` with the roles of participants 1 and 2
exchanged: participant 1 is a villager, participant 2 the hollow. -/
def roomWithFaithSwapped (faith : ℚ) : Room Nat :=
  { roomWithFaith faith with
    roleManager := some { roles := [(1, Role.villager), (2, Role.hollow), (3, Role.villager)] } }

/-- The room of `playing` in a vote round with the given ballots. -/
def votingRoom (votes : JsMap Nat (Option Nat)) : Room Nat :=
  { playingRoom with
    phase := Phase.voting
    votingManager := some { playerIds := [1, 2, 3], votes := votes, isVotingActive := true } }

/-- The session `playing` after its timer fired at the end of the ten minutes. -/
def ended : Option (Server Nat) :=
  (onTimerTick playing 600000).map (fun r => r.1)

end Example

/-! ## Sequences of ledger operations -/

/-- One operation on a `VotingManager`. -/
inductive VoteOp (α : Type) where
  | startVoting
  | castVote (voterId : α) (targetId : Option α)
  | resolveVotes
  | removePlayer (playerId : α)
  deriving DecidableEq

namespace VotingManager

variable {α : Type} [DecidableEq α]

/-- The state after one operation. -/
def applyOp (vm : VotingManager α) : VoteOp α → VotingManager α
  | VoteOp.startVoting => vm.startVoting
  | VoteOp.castVote voterId targetId => (vm.castVote voterId targetId).2
  | VoteOp.resolveVotes => vm.resolveVotes.2
  | VoteOp.removePlayer playerId => vm.removePlayer playerId

/-- The state after a sequence of operations. -/
def runOps (vm : VotingManager α) (ops : List (VoteOp α)) : VotingManager α :=
  ops.foldl applyOp vm

end VotingManager

/-! ## Further example sessions -/

namespace Example

/-- The room of `votingRoom [(1, some 2), (3, some 2), (2, none)]` after
`resolveVoting`: the villager 2 is exiled, the faith is 85, play has resumed. -/
def exiledRoom : Room Nat :=
  { playingRoom with
    players := [
      (1, { name := "Ana", position := ⟨0, 8 / 5, 0⟩, rotation := 0, ready := true,
            carrying := none, lastUpdate := none }),
      (3, { name := "Cy", position := ⟨0, 8 / 5, 0⟩, rotation := 0, ready := true,
            carrying := none, lastUpdate := none }) ]
    gameState := some { GameState.new 3 0 with faith := 85 }
    votingManager := some { playerIds := [1, 3], votes := [(1, some 2), (3, some 2), (2, none)],
                            isVotingActive := false } }

/-- The session after that exile: socket 2 is still connected and its
`currentRoom` is still the room. -/
def afterExile : Server Nat :=
  { room := exiledRoom, joined := [1, 2, 3], voteTimeouts := [] }

/-- The ballots `castVote(1, 2)`, `castVote(2, 2)`, `castVote(3, null)` cast in
a fresh round over the eligible ids 1, 2, 3. -/
def ballotsWithSelfVote : VotingManager Nat :=
  ((((VotingManager.new [1, 2, 3]).startVoting.castVote 1 (some 2)).2.castVote 2 (some 2)).2.castVote
    3 none).2

/-- A ledger over the eligible ids 1, 2, 3, 4 after one round in which 1 and 3
accuse 2, 2 accuses 1 and 4 casts no ballot, resolved with 2 exiled. -/
def ledgerAfterExile : VotingManager Nat :=
  (VotingManager.new [1, 2, 3, 4]).runOps
    [VoteOp.startVoting, VoteOp.castVote 1 (some 2), VoteOp.castVote 2 (some 1),
     VoteOp.castVote 3 (some 2), VoteOp.resolveVotes]

end Example

/-! ## Event sequences -/

/-- An inbound event of a socket, or the firing of a timer callback. The
random sort and the clock reading used while the event is handled come with it. -/
inductive Event (α : Type) where
  | joinRoom (socketId : α) (playerName : String)
  | playerReady (socketId : α) (shuffle : List α → List α) (now : Int)
  | position (socketId : α) (position : Vec3) (rotation : ℚ) (now : Int)
  | lightShrine (socketId : α) (shrineId : Int)
  | pickupVessel (socketId : α)
  | transferVessel (socketId : α) (targetPlayerId : α)
  | placeVessel (socketId : α)
  | callVote (socketId : α) (now : Int)
  | castVote (socketId : α) (targetPlayerId : Option α)
  | disconnect (socketId : α)
  | timerTick (now : Int)
  | voteTimeout (now : Int)

section EventSequences

variable {α : Type} [DecidableEq α]

/-- The handler of one event. -/
def Server.step (srv : Server α) : Event α → Option (Server α × List (Out α))
  | Event.joinRoom socketId playerName => some (onJoinRoom srv socketId playerName)
  | Event.playerReady socketId shuffle now => some (onPlayerReady srv socketId shuffle now)
  | Event.position socketId position rotation now => onPosition srv socketId position rotation now
  | Event.lightShrine socketId shrineId => onLightShrine srv socketId shrineId
  | Event.pickupVessel socketId => some (onPickupVessel srv socketId)
  | Event.transferVessel socketId targetPlayerId =>
    some (onTransferVessel srv socketId targetPlayerId)
  | Event.placeVessel socketId => onPlaceVessel srv socketId
  | Event.callVote socketId now => onCallVote srv socketId now
  | Event.castVote socketId targetPlayerId => onCastVote srv socketId targetPlayerId
  | Event.disconnect socketId => onDisconnect srv socketId
  | Event.timerTick now => onTimerTick srv now
  | Event.voteTimeout now => onVoteTimeout srv now

/-- The state after a sequence of events, `none` when one of them cannot
happen or its handler throws. -/
def Server.runEvents (srv : Server α) : List (Event α) → Option (Server α)
  | [] => some srv
  | e :: es =>
    match srv.step e with
    | none => none
    | some r => Server.runEvents r.1 es

/-- The number of participants of the room whose `carrying` is `'vessel'`. -/
def vesselHolders (room : Room α) : Nat :=
  room.players.countP (fun e => decide (e.2.carrying = some Item.vessel))

end EventSequences

namespace ShrineManager

/-- The square of the horizontal (x/z) distance from a position to a shrine. -/
def distSq {α : Type} (position : Vec3) (shrine : Shrine α) : ℚ :=
  (position.x - shrine.position.x) * (position.x - shrine.position.x) +
    (position.z - shrine.position.z) * (position.z - shrine.position.z)

end ShrineManager

/-! ## Example sessions with votes and the vessel -/

namespace Example

/-- The started session after participant 1 called a vote at time 0. -/
def voting : Option (Server Nat) :=
  (onCallVote playing 1 0).map (fun r => r.1)

/-- The session `voting` after all three participants cast a skip ballot (the
round is resolved with nobody exiled) and participant 2 called a second vote at
time 20000. -/
def secondRound : Option (Server Nat) :=
  ((((voting.bind (fun s => onCastVote s 1 none)).bind (fun r => onCastVote r.1 2 none)).bind
    (fun r => onCastVote r.1 3 none)).bind (fun r => onCallVote r.1 2 20000)).map (fun r => r.1)

/-- The started room with participant 2 carrying the vessel next to the altar. -/
def carrierAtAltar : Server Nat :=
  { room :=
      { playingRoom with
        players := [
          (1, { name := "Ana", position := ⟨0, 8 / 5, 0⟩, rotation := 0, ready := true,
                carrying := none, lastUpdate := none }),
          (2, { name := "Ben", position := ⟨0, 8 / 5, 49⟩, rotation := 0, ready := true,
                carrying := some Item.vessel, lastUpdate := some 1000 }),
          (3, { name := "Cy", position := ⟨0, 8 / 5, 0⟩, rotation := 0, ready := true,
                carrying := none, lastUpdate := none }) ] }
    joined := [1, 2, 3]
    voteTimeouts := [] }

end Example

namespace Example

/-- The session `carrierAtAltar` after participant 2 placed the vessel. -/
def vesselPlacedSession : Server Nat :=
  { carrierAtAltar with
    room :=
      { playingRoom with
        players := [
          (1, { name := "Ana", position := ⟨0, 8 / 5, 0⟩, rotation := 0, ready := true,
                carrying := none, lastUpdate := none }),
          (2, { name := "Ben", position := ⟨0, 8 / 5, 49⟩, rotation := 0, ready := true,
                carrying := none, lastUpdate := some 1000 }),
          (3, { name := "Cy", position := ⟨0, 8 / 5, 0⟩, rotation := 0, ready := true,
                carrying := none, lastUpdate := none }) ]
        gameState := some { GameState.new 3 0 with vesselPlaced := true } } }

end Example

/-! ## Properties -/

/-! ### Association lists -/

namespace JsMap

variable {K V : Type} [DecidableEq K]

theorem get_set_self (m : JsMap K V) (k : K) (v : V) : (m.set k v).get k = some v := by
  induction m with
  | nil => simp [set, get]
  | cons e m ih =>
    obtain ⟨k', v'⟩ := e
    by_cases h : k' = k
    · simp [set, get, h]
    · simp [set, get, h, ih]

theorem get_set_of_ne (m : JsMap K V) {k k' : K} (v : V) (h : k' ≠ k) :
    (m.set k v).get k' = m.get k' := by
  induction m with
  | nil => simp [set, get, Ne.symm h]
  | cons e m ih =>
    obtain ⟨k0, v0⟩ := e
    by_cases h0 : k0 = k
    · subst h0
      simp [set, get, Ne.symm h]
    · by_cases h1 : k0 = k'
      · subst h1
        simp [set, get, h0]
      · simp [set, get, h0, h1, ih]

theorem get_eq_none_iff (m : JsMap K V) (k : K) : m.get k = none ↔ k ∉ m.keys := by
  induction m with
  | nil => simp [get, keys]
  | cons e m ih =>
    obtain ⟨k0, v0⟩ := e
    by_cases h0 : k0 = k
    · simp [get, keys, h0]
    · simp only [get, h0, if_false, ih, keys, List.map_cons, List.mem_cons, not_or]
      constructor
      · intro h
        exact ⟨fun hk => h0 hk.symm, h⟩
      · intro h
        exact h.2

theorem set_of_not_mem (m : JsMap K V) (k : K) (v : V) (h : k ∉ m.keys) :
    m.set k v = m ++ [(k, v)] := by
  induction m with
  | nil => rfl
  | cons e m ih =>
    obtain ⟨k0, v0⟩ := e
    simp only [keys, List.map_cons, List.mem_cons, not_or] at h
    have h0 : k0 ≠ k := fun hk => h.1 hk.symm
    simp [set, h0, ih h.2]

theorem keys_set (m : JsMap K V) (k : K) (v : V) :
    (m.set k v).keys = if k ∈ m.keys then m.keys else m.keys ++ [k] := by
  induction m with
  | nil => simp [set, keys]
  | cons e m ih =>
    obtain ⟨k0, v0⟩ := e
    by_cases h0 : k0 = k
    · subst h0
      simp [set, keys]
    · have h0' : k ≠ k0 := fun hk => h0 hk.symm
      simp only [keys] at ih
      simp only [set, h0, if_false, keys, List.map_cons, List.mem_cons, h0', false_or, ih]
      split <;> simp

theorem nodup_keys_set (m : JsMap K V) (k : K) (v : V) (h : m.keys.Nodup) :
    (m.set k v).keys.Nodup := by
  rw [keys_set]
  split
  · exact h
  · rename_i hk
    exact List.Nodup.append h (List.nodup_singleton k) (by simpa using hk)

theorem mem_of_get {m : JsMap K V} {k : K} {v : V} (h : m.get k = some v) : (k, v) ∈ m := by
  induction m with
  | nil => simp [get] at h
  | cons e m ih =>
    obtain ⟨k0, v0⟩ := e
    by_cases h0 : k0 = k
    · simp [get, h0] at h
      simp [h0, h]
    · simp [get, h0] at h
      exact List.mem_cons_of_mem _ (ih h)

theorem get_of_mem {m : JsMap K V} {k : K} {v : V} (hn : m.keys.Nodup) (h : (k, v) ∈ m) :
    m.get k = some v := by
  induction m with
  | nil => simp at h
  | cons e m ih =>
    obtain ⟨k0, v0⟩ := e
    simp only [keys, List.map_cons, List.nodup_cons] at hn
    rcases List.mem_cons.1 h with h1 | h1
    · cases h1
      simp [get]
    · have hk : k ∈ JsMap.keys m := List.mem_map_of_mem Prod.fst h1
      have h0 : k0 ≠ k := fun hk0 => hn.1 (by simpa [keys, hk0] using hk)
      simp only [get, h0, if_false]
      exact ih hn.2 h1

end JsMap

/-! ### Role assignment -/

namespace RoleManager

variable {α : Type} [DecidableEq α]

theorem assignLoop_succ (roles : JsMap α Role) (l : List α) (i : Nat) (hl : l.Nodup)
    (hdis : ∀ p ∈ l, p ∉ roles.keys) :
    assignLoop roles l (i + 1) = roles ++ l.map (fun p => (p, Role.villager)) := by
  induction l generalizing roles i with
  | nil => simp [assignLoop]
  | cons p rest ih =>
    have hp : p ∉ roles.keys := hdis p (List.mem_cons_self _ _)
    have hn := List.nodup_cons.1 hl
    simp only [assignLoop, Nat.add_one_ne_zero, if_false]
    rw [JsMap.set_of_not_mem roles p _ hp, ih _ _ hn.2]
    · simp
    · intro q hq
      have hq1 : q ∉ roles.keys := hdis q (List.mem_cons_of_mem _ hq)
      have hq2 : q ≠ p := fun h => hn.1 (h ▸ hq)
      simpa [JsMap.keys, hq2] using hq1

theorem assignLoop_zero (p : α) (rest : List α) (hl : (p :: rest).Nodup) :
    assignLoop ([] : JsMap α Role) (p :: rest) 0 =
      (p, Role.hollow) :: rest.map (fun q => (q, Role.villager)) := by
  have hn := List.nodup_cons.1 hl
  simp only [assignLoop, if_true, JsMap.set]
  rw [assignLoop_succ _ _ _ hn.2]
  · simp
  · intro q hq
    have hq2 : q ≠ p := fun h => hn.1 (h ▸ hq)
    simpa [JsMap.keys] using hq2

theorem foldl_counts_villagers (l : List α) (c : RoleCounts) :
    (l.map (fun q => (q, Role.villager))).foldl
      (fun c e => if e.2 = Role.hollow then { c with hollow := c.hollow + 1 }
                  else { c with villagers := c.villagers + 1 }) c
      = { villagers := c.villagers + l.length, hollow := c.hollow } := by
  induction l generalizing c with
  | nil => simp
  | cons q rest ih =>
    simp only [List.map_cons, List.foldl_cons]
    rw [ih]
    simp
    omega

theorem get_map_villager (l : List α) (q : α) (hq : q ∈ l) :
    JsMap.get (l.map (fun q => (q, Role.villager))) q = some Role.villager := by
  induction l with
  | nil => simp at hq
  | cons a rest ih =>
    by_cases h : a = q
    · simp [JsMap.get, h]
    · have : q ∈ rest := by
        rcases List.mem_cons.1 hq with h1 | h1
        · exact absurd h1.symm h
        · exact h1
      simp [JsMap.get, h, ih this]

/-- C1. For every list of three or more distinct participant ids and whatever
permutation the shuffle of `assignRoles` returns, the role map has one entry per
id, `getRoleCounts` is hollow = 1 and villagers = N - 1, and `getHollowId` is an
id of the list, the only one mapped to hollow. -/
theorem assignRoles_exactly_one_hollow (shuffle : List α → List α) (playerIds : List α)
    (hN : 3 ≤ playerIds.length) (hd : playerIds.Nodup)
    (hs : (shuffle playerIds).Perm playerIds) :
    (RoleManager.new shuffle playerIds).getRoleCounts
        = { villagers := playerIds.length - 1, hollow := 1 } ∧
      (RoleManager.new shuffle playerIds).roles.keys.Perm playerIds ∧
      ∃ h, h ∈ playerIds ∧ (RoleManager.new shuffle playerIds).getHollowId = some h ∧
        (RoleManager.new shuffle playerIds).roles.get h = some Role.hollow ∧
        ∀ p ∈ playerIds, p ≠ h →
          (RoleManager.new shuffle playerIds).roles.get p = some Role.villager := by
  have hlen : (shuffle playerIds).length = playerIds.length := hs.length_eq
  have hnd : (shuffle playerIds).Nodup := hs.nodup_iff.2 hd
  cases hsh : shuffle playerIds with
  | nil =>
    rw [hsh] at hlen
    simp at hlen
    omega
  | cons h rest =>
    rw [hsh] at hlen hnd hs
    have hroles : (RoleManager.new shuffle playerIds).roles
        = (h, Role.hollow) :: rest.map (fun q => (q, Role.villager)) := by
      simp only [RoleManager.new, assignRoles, hsh]
      exact assignLoop_zero h rest hnd
    have hn := List.nodup_cons.1 hnd
    refine ⟨?_, ?_, h, ?_, ?_, ?_, ?_⟩
    · simp only [getRoleCounts, hroles, List.foldl_cons, if_true]
      rw [foldl_counts_villagers]
      simp at hlen
      simp
      omega
    · rw [hroles]
      simpa [JsMap.keys, Function.comp_def] using hs
    · exact hs.subset (List.mem_cons_self _ _)
    · simp [getHollowId, hroles]
    · simp [hroles, JsMap.get]
    · intro p hp hne
      have hp1 : p ∈ h :: rest := hs.symm.subset hp
      have hp2 : p ∈ rest := by
        rcases List.mem_cons.1 hp1 with h1 | h1
        · exact absurd h1 hne
        · exact h1
      rw [hroles]
      simp only [JsMap.get, Ne.symm hne, if_false]
      exact get_map_villager rest p hp2

/-- C1, at the ids 1, 2, 3 with the shuffle that reverses the list. -/
theorem assignRoles_exactly_one_hollow_witness :
    (RoleManager.new List.reverse [1, 2, 3]).getRoleCounts = { villagers := 2, hollow := 1 } :=
  (assignRoles_exactly_one_hollow List.reverse [1, 2, 3] (by decide) (by decide)
    (List.reverse_perm _)).1

end RoleManager

/-! ### Shrines -/

namespace ShrineManager

variable {α : Type}

/-- The record a successful `lightShrine` writes. -/
theorem lightShrine_getElem? (sm : ShrineManager α) (shrineId : Int) (playerId : α) (role : Role)
    (j : Nat) (s : Shrine α) (hs : sm.shrines[j]? = some s) :
    (sm.lightShrine shrineId playerId role).2.shrines[j]? =
      some (if shrineId = (j : Int) ∧ s.lit = false then
        { s with lit := true, litBy := some playerId, valid := decide (role = Role.villager) }
      else s) := by
  have hlt : j < sm.shrines.length := (List.getElem?_eq_some.1 hs).1
  unfold lightShrine getShrine
  by_cases h0 : 0 ≤ shrineId
  · by_cases hj : shrineId = (j : Int)
    · subst hj
      simp only [h0, if_true, Int.toNat_ofNat, hs]
      cases hl : s.lit
      · cases role <;> simp [hs, List.getElem?_set_self hlt]
      · simp [hs]
    · have hne : shrineId.toNat ≠ j := by
        intro h
        apply hj
        omega
      simp only [h0, if_true, hj, false_and, if_false]
      cases hg : sm.shrines[shrineId.toNat]? with
      | none => simp [hs]
      | some t =>
        cases ht : t.lit
        · simp [ht, List.getElem?_set_ne hne, hs]
        · simp [ht, hs]
  · have hj : shrineId ≠ (j : Int) := by omega
    simp [h0, hj, hs]

theorem lightShrine_success (sm : ShrineManager α) (shrineId : Int) (playerId : α) (role : Role) :
    (sm.lightShrine shrineId playerId role).1.success = true ↔
      ∃ s, 0 ≤ shrineId ∧ sm.shrines[shrineId.toNat]? = some s ∧ s.lit = false := by
  unfold lightShrine getShrine
  by_cases h0 : 0 ≤ shrineId
  · simp only [h0, if_true, true_and]
    cases hg : sm.shrines[shrineId.toNat]? with
    | none => simp [LightResult.success]
    | some t =>
      cases ht : t.lit <;> simp [LightResult.success, ht]
  · simp [h0, LightResult.success]

theorem lightShrine_length (sm : ShrineManager α) (shrineId : Int) (playerId : α) (role : Role) :
    (sm.lightShrine shrineId playerId role).2.shrines.length = sm.shrines.length := by
  unfold lightShrine
  cases sm.getShrine shrineId with
  | none => rfl
  | some t =>
    cases ht : t.lit <;> simp [ht]

theorem run_length (calls : List (LightCall α)) (sm : ShrineManager α) :
    (sm.run calls).shrines.length = sm.shrines.length := by
  induction calls generalizing sm with
  | nil => rfl
  | cons c cs ih => simp [run, ih, lightShrine_length]

theorem run_append (sm : ShrineManager α) (cs1 cs2 : List (LightCall α)) :
    sm.run (cs1 ++ cs2) = (sm.run cs1).run cs2 := by
  induction cs1 generalizing sm with
  | nil => rfl
  | cons c cs ih => simp [run, ih]

theorem trace_append (sm : ShrineManager α) (cs1 cs2 : List (LightCall α)) :
    sm.trace (cs1 ++ cs2) = sm.trace cs1 ++ (sm.run cs1).trace cs2 := by
  induction cs1 generalizing sm with
  | nil => rfl
  | cons c cs ih => simp [run, trace, ih]

/-- A lit shrine is frozen: no later call succeeds on it or changes its record. -/
theorem run_of_lit (calls : List (LightCall α)) (sm : ShrineManager α) (j : Nat) (s : Shrine α)
    (hs : sm.shrines[j]? = some s) (hlit : s.lit = true) :
    (sm.run calls).shrines[j]? = some s ∧
      ∀ c r, (c, r) ∈ sm.trace calls → r.success = true → c.shrineId ≠ (j : Int) := by
  induction calls generalizing sm with
  | nil => simp [run, trace, hs]
  | cons c0 cs ih =>
    have h1 := lightShrine_getElem? sm c0.shrineId c0.playerId c0.role j s hs
    simp only [hlit, Bool.true_eq_false, and_false, if_false] at h1
    obtain ⟨ihr, iht⟩ := ih _ h1
    refine ⟨by simpa [run] using ihr, ?_⟩
    intro c r hmem hsucc
    simp only [trace, List.mem_cons, Prod.mk.injEq] at hmem
    rcases hmem with ⟨rfl, rfl⟩ | hmem
    · intro hid
      obtain ⟨t, _, ht, htl⟩ := (lightShrine_success sm _ _ _).1 hsucc
      rw [hid, Int.toNat_ofNat, hs] at ht
      cases ht
      rw [hlit] at htl
      cases htl
    · exact iht c r hmem hsucc

/-- An unlit shrine is either never activated with success, or activated with
success by exactly one call of the sequence, which fixes its record. -/
theorem run_of_unlit (calls : List (LightCall α)) (sm : ShrineManager α) (j : Nat) (s : Shrine α)
    (hs : sm.shrines[j]? = some s) (hlit : s.lit = false) :
    ((sm.run calls).shrines[j]? = some s ∧
        ∀ c r, (c, r) ∈ sm.trace calls → r.success = true → c.shrineId ≠ (j : Int)) ∨
      ∃ c r, (c, r) ∈ sm.trace calls ∧ r.success = true ∧ c.shrineId = (j : Int) ∧
        (sm.run calls).shrines[j]? =
          some { s with lit := true, litBy := some c.playerId,
                        valid := decide (c.role = Role.villager) } ∧
        ∀ c1 r1, (c1, r1) ∈ sm.trace calls → r1.success = true → c1.shrineId = (j : Int) →
          c1.role = c.role := by
  induction calls generalizing sm with
  | nil => left; simp [run, trace, hs]
  | cons c0 cs ih =>
    have h1 := lightShrine_getElem? sm c0.shrineId c0.playerId c0.role j s hs
    by_cases hid : c0.shrineId = (j : Int)
    · right
      simp only [hid, hlit, and_self, if_true] at h1
      obtain ⟨hr, ht⟩ := run_of_lit cs _ j _ h1 rfl
      have hsucc : (sm.lightShrine c0.shrineId c0.playerId c0.role).1.success = true := by
        rw [lightShrine_success]
        exact ⟨s, by omega, by simpa [hid] using hs, hlit⟩
      refine ⟨c0, _, List.mem_cons_self _ _, hsucc, hid, ?_, ?_⟩
      · simpa [run, hid] using hr
      · intro c1 r1 hmem hs1 hid1
        simp only [trace, List.mem_cons, Prod.mk.injEq] at hmem
        rcases hmem with ⟨rfl, _⟩ | hmem
        · rfl
        · rw [hid] at hmem
          exact absurd hid1 (ht c1 r1 hmem hs1)
    · simp only [hid, false_and, if_false] at h1
      rcases ih _ h1 with ⟨hr, ht⟩ | ⟨c, r, hmem, hsucc, hcid, hr, huniq⟩
      · left
        refine ⟨by simpa [run] using hr, ?_⟩
        intro c r hmem hsucc
        simp only [trace, List.mem_cons, Prod.mk.injEq] at hmem
        rcases hmem with ⟨rfl, _⟩ | hmem
        · exact hid
        · exact ht c r hmem hsucc
      · right
        refine ⟨c, r, List.mem_cons_of_mem _ hmem, hsucc, hcid, by simpa [run] using hr, ?_⟩
        intro c1 r1 hmem1 hs1 hid1
        simp only [trace, List.mem_cons, Prod.mk.injEq] at hmem1
        rcases hmem1 with ⟨rfl, _⟩ | hmem1
        · exact absurd hid1 hid
        · exact huniq c1 r1 hmem1 hs1 hid1

end ShrineManager

namespace ShrineManager

variable {α : Type}

theorem new_getElem? (j : Nat) (hj : j < 7) :
    ∃ s, (ShrineManager.new : ShrineManager α).shrines[j]? = some s ∧ s.lit = false ∧
      s.valid = false := by
  interval_cases j <;> simp [ShrineManager.new]

theorem new_length : (ShrineManager.new : ShrineManager α).shrines.length = 7 := rfl

theorem trace_success_index (calls : List (LightCall α)) (sm : ShrineManager α)
    (c : LightCall α) (r : LightResult) (hmem : (c, r) ∈ sm.trace calls)
    (hsucc : r.success = true) :
    0 ≤ c.shrineId ∧ c.shrineId.toNat < sm.shrines.length := by
  induction calls generalizing sm with
  | nil => simp [trace] at hmem
  | cons c0 cs ih =>
    simp only [trace, List.mem_cons, Prod.mk.injEq] at hmem
    rcases hmem with ⟨rfl, rfl⟩ | hmem
    · obtain ⟨t, h0, ht, _⟩ := (lightShrine_success sm _ _ _).1 hsucc
      exact ⟨h0, (List.getElem?_eq_some.1 ht).1⟩
    · have := ih _ hmem
      rwa [lightShrine_length] at this

/-- C2. After any sequence of `lightShrine` calls on a fresh manager,
`isRitualComplete()` holds exactly when each of the seven shrines has a
successful activation made with role villager; a shrine whose successful
activation was made with role hollow is lit in `getPublicState()` and keeps
`isRitualComplete()` false after every further sequence of calls. -/
theorem isRitualComplete_iff_all_lit_by_villager (calls : List (LightCall α)) :
    (((ShrineManager.new : ShrineManager α).run calls).isRitualComplete = true ↔
        ∀ j : Nat, j < 7 →
          ∃ c r, (c, r) ∈ (ShrineManager.new : ShrineManager α).trace calls ∧
            r.success = true ∧ c.shrineId = (j : Int) ∧ c.role = Role.villager) ∧
      ∀ c r, (c, r) ∈ (ShrineManager.new : ShrineManager α).trace calls →
        r.success = true → c.role = Role.hollow →
        ∀ more : List (LightCall α),
          (∃ e, (((ShrineManager.new : ShrineManager α).run (calls ++ more)).getPublicState)[
              c.shrineId.toNat]? = some e ∧ e.lit = true) ∧
            ((ShrineManager.new : ShrineManager α).run (calls ++ more)).isRitualComplete
              = false := by
  have hlen : ∀ cs : List (LightCall α),
      ((ShrineManager.new : ShrineManager α).run cs).shrines.length = 7 := by
    intro cs
    rw [run_length, new_length]
  refine ⟨⟨?_, ?_⟩, ?_⟩
  · intro hall j hj
    obtain ⟨s0, hs0, hl0, hv0⟩ := new_getElem? (α := α) j hj
    simp only [isRitualComplete, List.all_eq_true] at hall
    rcases run_of_unlit calls _ j s0 hs0 hl0 with ⟨hr, _⟩ | ⟨c, r, hmem, hsucc, hcid, hr, _⟩
    · have := hall s0 (List.getElem?_mem hr)
      rw [hv0] at this
      cases this
    · have hv := hall _ (List.getElem?_mem hr)
      exact ⟨c, r, hmem, hsucc, hcid, by simpa using hv⟩
  · intro h
    simp only [isRitualComplete, List.all_eq_true]
    intro x hx
    obtain ⟨j, hjlt, hjx⟩ := List.getElem_of_mem hx
    rw [hlen] at hjlt
    have hxj : ((ShrineManager.new : ShrineManager α).run calls).shrines[j]? = some x := by
      rw [List.getElem?_eq_some]
      exact ⟨by rw [hlen]; exact hjlt, hjx⟩
    obtain ⟨s0, hs0, hl0, hv0⟩ := new_getElem? (α := α) j hjlt
    obtain ⟨c1, r1, hmem1, hsucc1, hcid1, hrole1⟩ := h j hjlt
    rcases run_of_unlit calls _ j s0 hs0 hl0 with ⟨_, hno⟩ | ⟨c, r, hmem, hsucc, hcid, hr, huniq⟩
    · exact absurd hcid1 (hno c1 r1 hmem1 hsucc1)
    · have hrole := huniq c1 r1 hmem1 hsucc1 hcid1
      rw [hr] at hxj
      cases hxj
      simp [← hrole, hrole1]
  · intro c r hmem hsucc hrole more
    have hmem2 : (c, r) ∈ (ShrineManager.new : ShrineManager α).trace (calls ++ more) := by
      rw [trace_append]
      exact List.mem_append_left _ hmem
    obtain ⟨h0, hlt⟩ := trace_success_index _ _ c r hmem hsucc
    rw [new_length] at hlt
    have hcid : c.shrineId = ((c.shrineId.toNat : Nat) : Int) := by omega
    obtain ⟨s0, hs0, hl0, hv0⟩ := new_getElem? (α := α) c.shrineId.toNat hlt
    rcases run_of_unlit (calls ++ more) _ c.shrineId.toNat s0 hs0 hl0 with
      ⟨_, hno⟩ | ⟨c2, r2, hmem3, hsucc3, hcid3, hr, huniq⟩
    · exact absurd hcid (hno c r hmem2 hsucc)
    · have hr2 : c2.role = Role.hollow := by
        rw [← huniq c r hmem2 hsucc hcid]
        exact hrole
      rw [hr2] at hr
      refine ⟨⟨{ id := s0.id, name := s0.name, position := s0.position, lit := true }, ?_, rfl⟩, ?_⟩
      · simp only [getPublicState, List.getElem?_map, hr, Option.map_some']
      · cases hcomp : ((ShrineManager.new : ShrineManager α).run (calls ++ more)).isRitualComplete
        · rfl
        · simp only [isRitualComplete, List.all_eq_true] at hcomp
          have := hcomp _ (List.getElem?_mem hr)
          simp at this

end ShrineManager

namespace ShrineManager

variable {α : Type}

theorem lightShrine_getElem?_none (sm : ShrineManager α) (shrineId : Int) (playerId : α)
    (role : Role) (j : Nat) (hs : sm.shrines[j]? = none) :
    (sm.lightShrine shrineId playerId role).2.shrines[j]? = none := by
  rw [List.getElem?_eq_none_iff] at hs ⊢
  rwa [lightShrine_length]

/-- One call changes the public view in a way fixed by the public view before
and the shrine id: neither the role nor the actor matters. -/
theorem getPublicState_lightShrine (sm1 sm2 : ShrineManager α) (shrineId : Int)
    (p1 p2 : α) (r1 r2 : Role) (h : sm1.getPublicState = sm2.getPublicState) :
    (sm1.lightShrine shrineId p1 r1).2.getPublicState =
      (sm2.lightShrine shrineId p2 r2).2.getPublicState := by
  apply List.ext_getElem?
  intro j
  have hj : sm1.getPublicState[j]? = sm2.getPublicState[j]? := by rw [h]
  simp only [getPublicState, List.getElem?_map] at hj ⊢
  cases h1 : sm1.shrines[j]? with
  | none =>
    cases h2 : sm2.shrines[j]? with
    | none =>
      rw [lightShrine_getElem?_none _ _ _ _ _ h1, lightShrine_getElem?_none _ _ _ _ _ h2]
    | some s2 => simp [h1, h2] at hj
  | some s1 =>
    cases h2 : sm2.shrines[j]? with
    | none => simp [h1, h2] at hj
    | some s2 =>
      rw [lightShrine_getElem? _ _ _ _ _ _ h1, lightShrine_getElem? _ _ _ _ _ _ h2]
      simp only [h1, h2, Option.map_some', Option.some.injEq, PublicShrine.mk.injEq] at hj
      obtain ⟨hid, hname, hpos, hlit⟩ := hj
      by_cases hc : shrineId = (j : Int) ∧ s1.lit = false
      · have hc2 : shrineId = (j : Int) ∧ s2.lit = false := ⟨hc.1, by rw [← hlit]; exact hc.2⟩
        simp [hc, hc2, hid, hname, hpos]
      · have hc2 : ¬(shrineId = (j : Int) ∧ s2.lit = false) := by rw [← hlit]; exact hc
        simp [hc, hc2, hid, hname, hpos, hlit]

theorem getPublicState_run (cs1 cs2 : List (LightCall α)) (sm1 sm2 : ShrineManager α)
    (hcs : cs1.map (fun c => c.shrineId) = cs2.map (fun c => c.shrineId))
    (h : sm1.getPublicState = sm2.getPublicState) :
    (sm1.run cs1).getPublicState = (sm2.run cs2).getPublicState := by
  induction cs1 generalizing cs2 sm1 sm2 with
  | nil =>
    cases cs2 with
    | nil => simpa [run] using h
    | cons c cs => simp at hcs
  | cons c1 cs1 ih =>
    cases cs2 with
    | nil => simp at hcs
    | cons c2 cs2 =>
      simp only [List.map_cons, List.cons.injEq] at hcs
      simp only [run]
      apply ih _ _ _ hcs.2
      rw [hcs.1]
      exact getPublicState_lightShrine _ _ _ _ _ _ _ h

/-- The static fields of a record never change. -/
theorem static_lightShrine (sm : ShrineManager α) (shrineId : Int) (playerId : α) (role : Role) :
    (sm.lightShrine shrineId playerId role).2.shrines.map (fun s => (s.id, s.name, s.position))
      = sm.shrines.map (fun s => (s.id, s.name, s.position)) := by
  apply List.ext_getElem?
  intro j
  simp only [List.getElem?_map]
  cases h1 : sm.shrines[j]? with
  | none => rw [lightShrine_getElem?_none _ _ _ _ _ h1]
  | some s =>
    rw [lightShrine_getElem? _ _ _ _ _ _ h1]
    by_cases hc : shrineId = (j : Int) ∧ s.lit = false <;> simp [hc]

theorem static_run (calls : List (LightCall α)) (sm : ShrineManager α) :
    (sm.run calls).shrines.map (fun s => (s.id, s.name, s.position))
      = sm.shrines.map (fun s => (s.id, s.name, s.position)) := by
  induction calls generalizing sm with
  | nil => rfl
  | cons c cs ih => simp only [run, ih, static_lightShrine]

theorem public_of_static_lit (l1 l2 : List (Shrine α))
    (hs : l1.map (fun s => (s.id, s.name, s.position)) = l2.map (fun s => (s.id, s.name, s.position)))
    (hl : l1.map (fun s => s.lit) = l2.map (fun s => s.lit)) :
    l1.map (fun s => ({ id := s.id, name := s.name, position := s.position, lit := s.lit } :
        PublicShrine))
      = l2.map (fun s => { id := s.id, name := s.name, position := s.position, lit := s.lit }) := by
  induction l1 generalizing l2 with
  | nil =>
    cases l2 with
    | nil => rfl
    | cons b l2 => simp at hs
  | cons a l1 ih =>
    cases l2 with
    | nil => simp at hs
    | cons b l2 =>
      simp only [List.map_cons, List.cons.injEq, Prod.mk.injEq] at hs hl
      simp only [List.map_cons, List.cons.injEq, PublicShrine.mk.injEq]
      exact ⟨⟨hs.1.1, hs.1.2.1, hs.1.2.2, hl.1⟩, ih l2 hs.2 hl.2⟩

/-- C4. `getPublicState()` returns, for each of the seven shrines, the fields
id, name, position and lit of its record; it is the same for two states that
differ only in `valid` and `litBy`; two states reached from a fresh manager that
agree on every lit flag have equal public views; and two call sequences that
differ only in the roles passed give the same public view after every step. -/
theorem getPublicState_independent_of_valid :
    (∀ sm1 sm2 : ShrineManager α,
        sm1.shrines.map (fun s => ({ s with valid := false, litBy := none } : Shrine α))
          = sm2.shrines.map (fun s => ({ s with valid := false, litBy := none } : Shrine α)) →
        sm1.getPublicState = sm2.getPublicState) ∧
      (∀ cs : List (LightCall α),
        ((ShrineManager.new : ShrineManager α).run cs).getPublicState.length = 7 ∧
        ∀ j : Nat, (((ShrineManager.new : ShrineManager α).run cs).getPublicState)[j]? =
          (((ShrineManager.new : ShrineManager α).run cs).shrines[j]?).map
            (fun s => ({ id := s.id, name := s.name, position := s.position, lit := s.lit } :
              PublicShrine))) ∧
      (∀ cs1 cs2 : List (LightCall α),
        ((ShrineManager.new : ShrineManager α).run cs1).shrines.map (fun s => s.lit)
          = ((ShrineManager.new : ShrineManager α).run cs2).shrines.map (fun s => s.lit) →
        ((ShrineManager.new : ShrineManager α).run cs1).getPublicState
          = ((ShrineManager.new : ShrineManager α).run cs2).getPublicState) ∧
      (∀ cs1 cs2 : List (LightCall α),
        cs1.map (fun c => (c.shrineId, c.playerId)) = cs2.map (fun c => (c.shrineId, c.playerId)) →
        ∀ k : Nat,
          ((ShrineManager.new : ShrineManager α).run (cs1.take k)).getPublicState
            = ((ShrineManager.new : ShrineManager α).run (cs2.take k)).getPublicState) := by
  refine ⟨?_, ?_, ?_, ?_⟩
  · intro sm1 sm2 h
    have hmap := congrArg (List.map (fun s : Shrine α =>
      ({ id := s.id, name := s.name, position := s.position, lit := s.lit } : PublicShrine))) h
    simpa [getPublicState, List.map_map, Function.comp_def] using hmap
  · intro cs
    refine ⟨?_, ?_⟩
    · simp [getPublicState, run_length, new_length]
    · intro j
      simp [getPublicState]
  · intro cs1 cs2 hl
    apply public_of_static_lit _ _ _ hl
    rw [static_run, static_run]
  · intro cs1 cs2 h k
    apply getPublicState_run _ _ _ _ _ rfl
    have h1 := congrArg (List.map Prod.fst) h
    simp only [List.map_map, Function.comp_def] at h1
    rw [List.map_take, List.map_take, h1]

end ShrineManager

/-! ### Vote resolution -/

namespace VotingManager

variable {α : Type} [DecidableEq α]

theorem countVotes_append_singleton (votes : JsMap α (Option α)) (b : α × Option α) :
    countVotes (votes ++ [b]) = countBallot (countVotes votes) b := by
  simp [countVotes, List.foldl_append]

theorem accusations_append_singleton (votes : JsMap α (Option α)) (b : α × Option α) (t : α) :
    accusations (votes ++ [b]) t = accusations votes t + (if b.2 = some t then 1 else 0) := by
  simp only [accusations, List.countP_append, List.countP_cons, List.countP_nil]
  by_cases h : b.2 = some t <;> simp [h]

theorem skips_append_singleton (votes : JsMap α (Option α)) (b : α × Option α) :
    skips (votes ++ [b]) = skips votes + (if b.2 = none then 1 else 0) := by
  simp only [skips, List.countP_append, List.countP_cons, List.countP_nil]
  by_cases h : b.2 = none <;> simp [h]

/-- What the first loop of `resolveVotes` computes: the number of skip ballots,
and a map with one entry per accused target holding its number of ballots. -/
theorem countVotes_spec (votes : JsMap α (Option α)) :
    (countVotes votes).2 = skips votes ∧ (countVotes votes).1.keys.Nodup ∧
      ∀ t, (countVotes votes).1.get t =
        if accusations votes t = 0 then none else some (accusations votes t) := by
  induction votes using List.reverseRecOn with
  | nil => simp [countVotes, skips, accusations, JsMap.get, JsMap.keys]
  | append_singleton votes b ih =>
    obtain ⟨hsk, hnd, hget⟩ := ih
    rw [countVotes_append_singleton]
    obtain ⟨voter, target⟩ := b
    cases target with
    | none =>
      refine ⟨?_, hnd, ?_⟩
      · simp [countBallot, hsk, skips_append_singleton]
      · intro t
        simp [countBallot, hget, accusations_append_singleton]
    | some t0 =>
      refine ⟨?_, ?_, ?_⟩
      · simp [countBallot, hsk, skips_append_singleton]
      · exact JsMap.nodup_keys_set _ _ _ hnd
      · intro t
        simp only [countBallot, accusations_append_singleton]
        by_cases ht : t0 = t
        · subst ht
          rw [JsMap.get_set_self, hget]
          by_cases h0 : accusations votes t0 = 0 <;> simp [h0]
        · have ht' : t ≠ t0 := fun h => ht h.symm
          rw [JsMap.get_set_of_ne _ _ ht', hget]
          simp [ht]

theorem mem_countVotes_iff (votes : JsMap α (Option α)) (t : α) (c : Nat) :
    (t, c) ∈ (countVotes votes).1 ↔ c = accusations votes t ∧ 0 < c := by
  obtain ⟨_, hnd, hget⟩ := countVotes_spec votes
  constructor
  · intro h
    have h1 := JsMap.get_of_mem hnd h
    rw [hget] at h1
    by_cases h0 : accusations votes t = 0
    · simp [h0] at h1
    · simp only [h0, if_false, Option.some.injEq] at h1
      omega
  · rintro ⟨rfl, hpos⟩
    apply JsMap.mem_of_get
    rw [hget]
    simp [Nat.pos_iff_ne_zero.1 hpos]

theorem tally_append_singleton (l : JsMap α Nat) (e : α × Nat) (skipVotes : Nat) :
    tally (l ++ [e]) skipVotes = tallyStep (tally l skipVotes) e := by
  simp [tally, List.foldl_append]

/-- Loop invariant of the second loop of `resolveVotes`. -/
theorem tally_spec (l : JsMap α Nat) (skipVotes : Nat) (hnd : l.keys.Nodup)
    (hpos : ∀ e ∈ l, 0 < e.2) :
    (skipVotes ≤ (tally l skipVotes).maxVotes ∧ ∀ e ∈ l, e.2 ≤ (tally l skipVotes).maxVotes) ∧
      ((tally l skipVotes).exiled = none → (tally l skipVotes).maxVotes = skipVotes) ∧
      (∀ t, (tally l skipVotes).exiled = some t →
        (t, (tally l skipVotes).maxVotes) ∈ l ∧ skipVotes < (tally l skipVotes).maxVotes) ∧
      ((tally l skipVotes).tie = true ↔
        ∃ e ∈ l, e.2 = (tally l skipVotes).maxVotes ∧ some e.1 ≠ (tally l skipVotes).exiled) := by
  induction l using List.reverseRecOn with
  | nil => simp [tally]
  | append_singleton l e ih =>
    have hnd1 : (JsMap.keys l).Nodup := by
      simp only [JsMap.keys, List.map_append] at hnd
      exact (List.nodup_append.1 hnd).1
    have hnew : e.1 ∉ JsMap.keys l := by
      simp only [JsMap.keys, List.map_append, List.map_cons, List.map_nil] at hnd
      have := (List.nodup_append.1 hnd).2.2
      intro hmem
      exact this hmem (List.mem_singleton_self _)
    have hpos1 : ∀ x ∈ l, 0 < x.2 := fun x hx => hpos x (List.mem_append_left _ hx)
    have hepos : 0 < e.2 := hpos e (List.mem_append_right _ (List.mem_singleton_self _))
    obtain ⟨⟨hskip, hmax⟩, hnone, hsome, htie⟩ := ih hnd1 hpos1
    rw [tally_append_singleton]
    generalize tally l skipVotes = st at hskip hmax hnone hsome htie
    obtain ⟨m, ex, tie⟩ := st
    simp only at hskip hmax hnone hsome htie
    obtain ⟨t, c⟩ := e
    simp only at hnew hepos
    by_cases h1 : c > m
    · simp only [tallyStep, h1, if_true]
      refine ⟨⟨by omega, ?_⟩, by simp, ?_, ?_⟩
      · intro x hx
        rcases List.mem_append.1 hx with hx | hx
        · have := hmax x hx
          omega
        · simp only [List.mem_singleton] at hx
          subst hx
          exact le_refl _
      · intro u hu
        simp only [Option.some.injEq] at hu
        subst hu
        exact ⟨by simp, by omega⟩
      · simp only [Bool.false_eq_true, false_iff, not_exists, not_and, not_not]
        intro x hx hxc
        rcases List.mem_append.1 hx with hx | hx
        · have := hmax x hx
          omega
        · simp only [List.mem_singleton] at hx
          subst hx
          rfl
    · by_cases h2 : c = m
      · subst h2
        have hc : c = c ∧ c > 0 := ⟨rfl, hepos⟩
        simp only [tallyStep, h1, if_false, hc, and_self, if_true]
        refine ⟨⟨hskip, ?_⟩, hnone, ?_, ?_⟩
        · intro x hx
          rcases List.mem_append.1 hx with hx | hx
          · exact hmax x hx
          · simp only [List.mem_singleton] at hx
            subst hx
            exact le_refl _
        · intro u hu
          obtain ⟨hm, hlt⟩ := hsome u hu
          exact ⟨List.mem_append_left _ hm, hlt⟩
        · simp only [true_iff]
          refine ⟨(t, c), by simp, rfl, ?_⟩
          intro hex
          have hm := (hsome t hex.symm).1
          exact hnew (List.mem_map_of_mem Prod.fst hm)
      · have hc : ¬(c = m ∧ c > 0) := fun h => h2 h.1
        simp only [tallyStep, h1, if_false, hc]
        refine ⟨⟨hskip, ?_⟩, hnone, ?_, ?_⟩
        · intro x hx
          rcases List.mem_append.1 hx with hx | hx
          · exact hmax x hx
          · simp only [List.mem_singleton] at hx
            subst hx
            simp only
            omega
        · intro u hu
          obtain ⟨hm, hlt⟩ := hsome u hu
          exact ⟨List.mem_append_left _ hm, hlt⟩
        · rw [htie]
          constructor
          · rintro ⟨x, hx, hxc, hxe⟩
            exact ⟨x, List.mem_append_left _ hx, hxc, hxe⟩
          · rintro ⟨x, hx, hxc, hxe⟩
            rcases List.mem_append.1 hx with hx | hx
            · exact ⟨x, hx, hxc, hxe⟩
            · simp only [List.mem_singleton] at hx
              subst hx
              exact absurd hxc h2

end VotingManager

namespace VotingManager

variable {α : Type} [DecidableEq α]

/-- The loop variables after both loops of `resolveVotes`. -/
theorem resolveVotes_fst (vm : VotingManager α) :
    vm.resolveVotes.1.tie = (tally (countVotes vm.votes).1 (countVotes vm.votes).2).tie ∧
      vm.resolveVotes.1.exiled =
        (if (tally (countVotes vm.votes).1 (countVotes vm.votes).2).tie then none
         else (tally (countVotes vm.votes).1 (countVotes vm.votes).2).exiled) ∧
      vm.resolveVotes.1.skipVotes = skips vm.votes := by
  refine ⟨?_, ?_, ?_⟩
  · simp only [resolveVotes]
  · simp only [resolveVotes]
  · simp only [resolveVotes]
    exact (countVotes_spec vm.votes).1

/-- The invariant of the second loop, stated on the ballots. -/
theorem tally_countVotes (votes : JsMap α (Option α)) :
    (skips votes ≤ (tally (countVotes votes).1 (countVotes votes).2).maxVotes ∧
        ∀ t, accusations votes t ≤ (tally (countVotes votes).1 (countVotes votes).2).maxVotes) ∧
      ((tally (countVotes votes).1 (countVotes votes).2).exiled = none →
        (tally (countVotes votes).1 (countVotes votes).2).maxVotes = skips votes) ∧
      (∀ t, (tally (countVotes votes).1 (countVotes votes).2).exiled = some t →
        accusations votes t = (tally (countVotes votes).1 (countVotes votes).2).maxVotes ∧
          skips votes < (tally (countVotes votes).1 (countVotes votes).2).maxVotes) ∧
      ((tally (countVotes votes).1 (countVotes votes).2).tie = true ↔
        ∃ u, 0 < accusations votes u ∧
          accusations votes u = (tally (countVotes votes).1 (countVotes votes).2).maxVotes ∧
          some u ≠ (tally (countVotes votes).1 (countVotes votes).2).exiled) := by
  obtain ⟨hsk, hnd, _⟩ := countVotes_spec votes
  have hpos : ∀ e ∈ (countVotes votes).1, 0 < e.2 := by
    intro e he
    exact ((mem_countVotes_iff votes e.1 e.2).1 he).2
  obtain ⟨⟨h1, h2⟩, h3, h4, h5⟩ := tally_spec (countVotes votes).1 (countVotes votes).2 hnd hpos
  rw [hsk] at h1 h2 h3 h4 h5 ⊢
  refine ⟨⟨h1, ?_⟩, h3, ?_, ?_⟩
  · intro t
    by_cases h0 : accusations votes t = 0
    · omega
    · exact h2 (t, accusations votes t)
        ((mem_countVotes_iff votes t _).2 ⟨rfl, Nat.pos_of_ne_zero h0⟩)
  · intro t ht
    obtain ⟨hm, hlt⟩ := h4 t ht
    exact ⟨((mem_countVotes_iff votes t _).1 hm).1.symm, hlt⟩
  · rw [h5]
    constructor
    · rintro ⟨e, he, hec, hee⟩
      obtain ⟨hc, hp⟩ := (mem_countVotes_iff votes e.1 e.2).1 he
      exact ⟨e.1, by omega, by omega, hee⟩
    · rintro ⟨u, hp, hc, hu⟩
      exact ⟨(u, accusations votes u), (mem_countVotes_iff votes u _).2 ⟨rfl, hp⟩, hc, hu⟩

theorem resolveVotes_exiled_iff (vm : VotingManager α) (t : α) :
    vm.resolveVotes.1.exiled = some t ↔
      skips vm.votes < accusations vm.votes t ∧
        ∀ u, u ≠ t → accusations vm.votes u < accusations vm.votes t := by
  obtain ⟨_, hex, _⟩ := resolveVotes_fst vm
  obtain ⟨⟨h1, h2⟩, h3, h4, h5⟩ := tally_countVotes vm.votes
  rw [hex]
  generalize tally (countVotes vm.votes).1 (countVotes vm.votes).2 = st at h1 h2 h3 h4 h5
  obtain ⟨m, ex, tie⟩ := st
  simp only at h1 h2 h3 h4 h5 ⊢
  constructor
  · intro h
    cases tie with
    | true => simp at h
    | false =>
      simp only [Bool.false_eq_true, if_false] at h
      obtain ⟨hacc, hlt⟩ := h4 t h
      refine ⟨by omega, ?_⟩
      intro u hu
      have hle := h2 u
      by_contra hnot
      have heq : accusations vm.votes u = m := by omega
      have : false = true := h5.2 ⟨u, by omega, heq, by rw [h]; simpa using hu⟩
      cases this
  · rintro ⟨hlt, hothers⟩
    have hm : skips vm.votes < m := lt_of_lt_of_le hlt (h2 t)
    cases ex with
    | none =>
      have := h3 rfl
      omega
    | some t0 =>
      obtain ⟨hacc0, _⟩ := h4 t0 rfl
      have ht0 : t0 = t := by
        by_contra hne
        have := hothers t0 hne
        have := h2 t
        omega
      subst ht0
      cases tie with
      | false => simp
      | true =>
        obtain ⟨u, _, hu, hne⟩ := h5.1 rfl
        have hne' : u ≠ t0 := fun h => hne (by rw [h])
        have := hothers u hne'
        omega

theorem resolveVotes_tie_iff (vm : VotingManager α) :
    vm.resolveVotes.1.tie = true ↔
      vm.resolveVotes.1.exiled = none ∧
        ∃ u, 0 < accusations vm.votes u ∧ skips vm.votes ≤ accusations vm.votes u ∧
          ∀ w, accusations vm.votes w ≤ accusations vm.votes u := by
  obtain ⟨htie, hex, _⟩ := resolveVotes_fst vm
  obtain ⟨⟨h1, h2⟩, h3, h4, h5⟩ := tally_countVotes vm.votes
  rw [hex, htie]
  generalize tally (countVotes vm.votes).1 (countVotes vm.votes).2 = st at h1 h2 h3 h4 h5
  obtain ⟨m, ex, tie⟩ := st
  simp only at h1 h2 h3 h4 h5 ⊢
  constructor
  · intro h
    subst h
    obtain ⟨u, hp, hu, _⟩ := h5.1 rfl
    refine ⟨by simp, u, hp, by omega, ?_⟩
    intro w
    rw [hu]
    exact h2 w
  · rintro ⟨hnone, u, hp, hsk, htop⟩
    cases tie with
    | true => rfl
    | false =>
      simp only [Bool.false_eq_true, if_false] at hnone
      subst hnone
      have hm := h3 rfl
      have hum : accusations vm.votes u = m := by
        have := h2 u
        omega
      exact h5.2 ⟨u, hp, hum, by simp⟩

end VotingManager

namespace VotingManager

variable {α : Type} [DecidableEq α]

/-- C6. `resolveVotes` returns exiled = t exactly when the number of ballots
naming t is strictly greater than the number of skip ballots and strictly
greater than the number naming any other target; otherwise exiled is null. The
exiled id is fixed by the counts, so it is the same for the ballots cast in any
other order. -/
theorem resolveVotes_exiles_strict_maximum (vm : VotingManager α) :
    (∀ t, vm.resolveVotes.1.exiled = some t ↔
        skips vm.votes < accusations vm.votes t ∧
          ∀ u, u ≠ t → accusations vm.votes u < accusations vm.votes t) ∧
      ((¬∃ t, skips vm.votes < accusations vm.votes t ∧
          ∀ u, u ≠ t → accusations vm.votes u < accusations vm.votes t) →
        vm.resolveVotes.1.exiled = none) ∧
      (∀ vm2 : VotingManager α, skips vm2.votes = skips vm.votes →
        (∀ t, accusations vm2.votes t = accusations vm.votes t) →
        vm2.resolveVotes.1.exiled = vm.resolveVotes.1.exiled) ∧
      (∀ vm2 : VotingManager α, vm2.votes.Perm vm.votes →
        vm2.resolveVotes.1.exiled = vm.resolveVotes.1.exiled) := by
  have hcounts : ∀ vm2 : VotingManager α, skips vm2.votes = skips vm.votes →
      (∀ t, accusations vm2.votes t = accusations vm.votes t) →
      vm2.resolveVotes.1.exiled = vm.resolveVotes.1.exiled := by
    intro vm2 hsk hacc
    apply Option.ext
    intro t
    simp only [Option.mem_def]
    rw [resolveVotes_exiled_iff, resolveVotes_exiled_iff, hsk, hacc t]
    simp only [hacc]
  refine ⟨resolveVotes_exiled_iff vm, ?_, hcounts, ?_⟩
  · intro hno
    cases hex : vm.resolveVotes.1.exiled with
    | none => rfl
    | some t => exact absurd ⟨t, (resolveVotes_exiled_iff vm t).1 hex⟩ hno
  · intro vm2 hperm
    apply hcounts
    · exact hperm.countP_eq _
    · intro t
      exact hperm.countP_eq _

/-- C7, as the code has it. The tie flag is set exactly when nobody is exiled
and some accused target holds the maximum count over all options, the skip
option included; so when the skip count is at the maximum and an accused
target's count equals it, the result is exiled = null with tie = true. -/
theorem resolveVotes_tie_flag (vm : VotingManager α) :
    (vm.resolveVotes.1.tie = true ↔
        vm.resolveVotes.1.exiled = none ∧
          ∃ u, 0 < accusations vm.votes u ∧ skips vm.votes ≤ accusations vm.votes u ∧
            ∀ w, accusations vm.votes w ≤ accusations vm.votes u) ∧
      (∀ u, 0 < accusations vm.votes u → accusations vm.votes u = skips vm.votes →
        (∀ w, accusations vm.votes w ≤ skips vm.votes) →
        vm.resolveVotes.1.exiled = none ∧ vm.resolveVotes.1.tie = true) := by
  refine ⟨resolveVotes_tie_iff vm, ?_⟩
  intro u hpos heq hmax
  have hnone : vm.resolveVotes.1.exiled = none := by
    cases hex : vm.resolveVotes.1.exiled with
    | none => rfl
    | some t =>
      have := ((resolveVotes_exiled_iff vm t).1 hex).1
      have := hmax t
      omega
  refine ⟨hnone, (resolveVotes_tie_iff vm).2 ⟨hnone, u, hpos, by omega, ?_⟩⟩
  intro w
  rw [heq]
  exact hmax w

/-- C7 fails as stated: with one ballot naming participant 2 and one skip
ballot, the skip count is at the maximum and the count of 2 equals it, and
`resolveVotes` returns exiled = null with tie = true, not false. -/
theorem resolveVotes_tie_with_skip_at_maximum :
    skips Example.ballotsOneAccusationOneSkip.votes = 1 ∧
      accusations Example.ballotsOneAccusationOneSkip.votes 2 = 1 ∧
      Example.ballotsOneAccusationOneSkip.resolveVotes.1.voteCounts = [(2, 1)] ∧
      Example.ballotsOneAccusationOneSkip.resolveVotes.1.exiled = none ∧
      Example.ballotsOneAccusationOneSkip.resolveVotes.1.tie ≠ false := by
  decide

end VotingManager

/-! ### Room handlers -/

section RoomProperties

variable {α : Type} [DecidableEq α]

theorem JsMap.not_mem_keys_delete {V : Type} (m : JsMap α V) (k : α) :
    k ∉ (m.delete k).keys := by
  simp [JsMap.delete, JsMap.keys, List.mem_filter]

theorem revealRoles_of_roleManager (room : Room α) (rm : RoleManager α)
    (hrm : room.roleManager = some rm) :
    revealRoles room = some (room.players.map (fun p => (p.1, rm.getRole p.1))) := by
  unfold revealRoles
  cases hp : room.players with
  | nil => simp
  | cons e es => simp [hrm]

/-- Calling `endGame` on a started room: the phase becomes ended and one `gameEnd` is
broadcast. -/
theorem endGame_of_started (room : Room α) (reason : EndReason) (rm : RoleManager α)
    (sm : ShrineManager α) (hrm : room.roleManager = some rm)
    (hsm : room.shrineManager = some sm) :
    endGame room reason =
      some ({ room with timer := false, phase := Phase.ended },
        [(Dest.room, Msg.gameEnd (endVerdict sm reason).1 (endVerdict sm reason).2
          (room.players.map (fun p => (p.1, rm.getRole p.1))) sm.getTrueState)]) := by
  obtain ⟨id, players, gs, rmo, smo, vmo, phase, timer, startTime⟩ := room
  simp only at hrm hsm
  subst hrm hsm
  cases players <;> simp [endGame, revealRoles]

end RoomProperties

section VotingOutcome

variable {α : Type} [DecidableEq α]

/-- C8. `resolveVoting` on a started room: an exiled hollow ends the game for
the villagers with reason hollow_exiled; an exiled villager costs 15 faith,
floored at 0, and ends the game for the hollow with reason faith_depleted when
the faith is then 0, else the phase is playing again; with nobody exiled the
phase is playing and the faith is unchanged. The exiled id leaves
`room.players` in every exile case. -/
theorem resolveVoting_outcome (room : Room α) (sockets : JsSet α) (vm : VotingManager α)
    (rm : RoleManager α) (gs : GameState) (sm : ShrineManager α)
    (hvm : room.votingManager = some vm) (hrm : room.roleManager = some rm)
    (hgs : room.gameState = some gs) (hsm : room.shrineManager = some sm) :
    ∃ room1 outs, resolveVoting room sockets = some (room1, outs) ∧
      (∀ e, vm.resolveVotes.1.exiled = some e → rm.getRole e = Role.hollow →
        room1.phase = Phase.ended ∧ room1.players = room.players.delete e ∧
        e ∉ room1.players.keys ∧ room1.gameState = some gs ∧
        ∃ roles states,
          (Dest.room, Msg.gameEnd Winner.villagers EndReason.hollow_exiled roles states) ∈ outs) ∧
      (∀ e, vm.resolveVotes.1.exiled = some e → rm.getRole e = Role.villager →
        room1.players = room.players.delete e ∧ e ∉ room1.players.keys ∧
        room1.gameState = some { gs with faith := max 0 (gs.faith - 15) } ∧
        (max 0 (gs.faith - 15) = 0 →
          room1.phase = Phase.ended ∧
          ∃ roles states,
            (Dest.room, Msg.gameEnd Winner.hollow EndReason.faith_depleted roles states) ∈ outs) ∧
        (max 0 (gs.faith - 15) ≠ 0 →
          room1.phase = Phase.playing ∧
          ∀ w r roles states, (Dest.room, Msg.gameEnd w r roles states) ∉ outs)) ∧
      (vm.resolveVotes.1.exiled = none →
        room1.phase = Phase.playing ∧ room1.gameState = some gs ∧
        room1.players = room.players ∧
        ∀ w r roles states, (Dest.room, Msg.gameEnd w r roles states) ∉ outs) := by
  obtain ⟨id, players, gso, rmo, smo, vmo, phase, timer, startTime⟩ := room
  simp only at hvm hrm hgs hsm
  subst hvm hrm hgs hsm
  cases hex : vm.resolveVotes.1.exiled with
  | none =>
    simp only [resolveVoting, hex]
    refine ⟨_, _, rfl, ?_, ?_, ?_⟩
    · intro e he
      cases he
    · intro e he
      cases he
    · intro _
      simp
  | some x =>
    cases hrole : rm.getRole x with
    | hollow =>
      have hend := endGame_of_started
        ({ id := id, players := JsMap.delete players x, gameState := some gs, roleManager := some rm,
           shrineManager := some sm, votingManager := some vm.resolveVotes.2, phase := phase,
           timer := timer, startTime := startTime } : Room α)
        EndReason.hollow_exiled rm sm rfl rfl
      simp only [resolveVoting, hex, hrole, if_true, hend]
      refine ⟨_, _, rfl, ?_, ?_, ?_⟩
      · intro e he _
        cases he
        refine ⟨rfl, rfl, JsMap.not_mem_keys_delete _ _, rfl, ?_⟩
        exact ⟨(JsMap.delete players x).map (fun p => (p.1, rm.getRole p.1)), sm.getTrueState,
          by simp [endVerdict]⟩
      · intro e he hv
        cases he
        rw [hrole] at hv
        cases hv
      · intro h
        cases h
    | villager =>
      have hne : ¬(Role.villager = Role.hollow) := by decide
      by_cases hf : max 0 (gs.faith - 15) ≤ 0
      · have hend := endGame_of_started
          ({ id := id, players := JsMap.delete players x,
             gameState := some (gs.drainFaith 15).2, roleManager := some rm,
             shrineManager := some sm, votingManager := some vm.resolveVotes.2, phase := phase,
             timer := timer, startTime := startTime } : Room α)
          EndReason.faith_depleted rm sm rfl rfl
        have hf0 : max 0 (gs.faith - 15) = 0 := le_antisymm hf (le_max_left _ _)
        simp only [resolveVoting, hex, hrole, hne, if_false, GameState.drainFaith, hf, if_true] at hend ⊢
        rw [hend]
        refine ⟨_, _, rfl, ?_, ?_, ?_⟩
        · intro e he hv
          have hxe : x = e := Option.some.inj he
          subst hxe
          rw [hrole] at hv
          cases hv
        · intro e he _
          have hxe : x = e := Option.some.inj he
          subst hxe
          refine ⟨rfl, JsMap.not_mem_keys_delete _ _, rfl, ?_, ?_⟩
          · intro _
            exact ⟨rfl, (JsMap.delete players x).map (fun p => (p.1, rm.getRole p.1)),
              sm.getTrueState, by simp [endVerdict]⟩
          · intro hne0
            exact absurd hf0 hne0
        · intro h
          cases h
      · simp only [resolveVoting, hex, hrole, hne, if_false, GameState.drainFaith, hf]
        refine ⟨_, _, rfl, ?_, ?_, ?_⟩
        · intro e he hv
          have hxe : x = e := Option.some.inj he
          subst hxe
          rw [hrole] at hv
          cases hv
        · intro e he _
          have hxe : x = e := Option.some.inj he
          subst hxe
          refine ⟨rfl, JsMap.not_mem_keys_delete _ _, rfl, ?_, ?_⟩
          · intro h0
            rw [h0] at hf
            exact absurd (le_refl _) hf
          · intro _
            refine ⟨rfl, ?_⟩
            intro w r roles states
            by_cases hs : sockets.has x <;> simp [hs]
        · intro h
          cases h


/-- C8, in a vote round where participants 1 and 3 accuse the villager 2, who
skips: 2 is exiled, the faith drops from 100 to 85 and play resumes. -/
theorem resolveVoting_outcome_witness :
    ∃ room1 outs,
      resolveVoting (Example.votingRoom [(1, some 2), (3, some 2), (2, none)]) [1, 2, 3]
        = some (room1, outs) ∧
      room1.phase = Phase.playing ∧ room1.players.keys = [1, 3] ∧
      room1.gameState.map (fun gs => gs.faith) = some 85 := by
  obtain ⟨room1, outs, hres, _, hvillager, _⟩ :=
    resolveVoting_outcome (Example.votingRoom [(1, some 2), (3, some 2), (2, none)]) [1, 2, 3]
      _ _ _ _ rfl rfl rfl rfl
  obtain ⟨hplayers, _, hfaith, _, hplaying⟩ := hvillager 2 (by decide) (by decide)
  refine ⟨room1, outs, hres, ?_, ?_, ?_⟩
  · apply (hplaying _).1
    norm_num [GameState.new]
  · rw [hplayers]
    decide
  · rw [hfaith]
    norm_num [GameState.new]

theorem filter_unicast (ps : JsMap α Player) (sockets : JsSet α) (g1 g2 : α → Msg α) (p : α)
    (h : g1 p = g2 p) :
    (ps.filterMap (fun e => if sockets.has e.1 then some (Dest.socket e.1, g1 e.1) else none)).filter
        (fun o => decide (o.1 = Dest.socket p))
      = (ps.filterMap (fun e =>
          if sockets.has e.1 then some (Dest.socket e.1, g2 e.1) else none)).filter
        (fun o => decide (o.1 = Dest.socket p)) := by
  induction ps with
  | nil => rfl
  | cons e ps ih =>
    obtain ⟨k, v⟩ := e
    simp only [List.filterMap_cons]
    by_cases hs : sockets.has k = true
    · simp only [hs, if_true, List.filter_cons]
      by_cases hp : k = p
      · subst hp
        simp [h, ih]
      · have hd : ¬(Dest.socket k = Dest.socket p) := by simpa using hp
        simp only [hd, decide_False, Bool.false_eq_true, if_false]
        exact ih
    · simp only [hs, if_false, Bool.false_eq_true]
      exact ih

end VotingOutcome

section GameStart

variable {α : Type} [DecidableEq α]

/-- C5. Every message `startGame` emits is a `gameStart` sent to one
participant alone, carrying that participant's role in the role map just built,
the public view of the fresh shrines, the public player list and the duration;
a connected participant gets it; the messages sent to p are the same under two
shuffles that give p the same role; and `getPublicPlayerList` is a function of
`room.players` alone. -/
theorem gameStart_reveals_only_own_role (room : Room α) (shuffle1 shuffle2 : List α → List α)
    (now : Int) (sockets : JsSet α) (p : α) :
    (∀ o ∈ (startGame room shuffle1 now sockets).2.2,
        ∃ q rm, q ∈ room.players.keys ∧
          (startGame room shuffle1 now sockets).2.1.roleManager = some rm ∧
          rm = RoleManager.new shuffle1 room.players.keys ∧
          o = (Dest.socket q,
            Msg.gameStart (rm.getRole q) (ShrineManager.new : ShrineManager α).getPublicState
              (getPublicPlayerList room) GAME_DURATION)) ∧
      ((startGame room shuffle1 now sockets).1 = StartResult.ok →
        JsMap.has room.players p = true → sockets.has p = true →
        (Dest.socket p,
          Msg.gameStart ((RoleManager.new shuffle1 room.players.keys).getRole p)
            (ShrineManager.new : ShrineManager α).getPublicState
            (getPublicPlayerList room) GAME_DURATION)
          ∈ (startGame room shuffle1 now sockets).2.2) ∧
      ((RoleManager.new shuffle1 room.players.keys).getRole p
          = (RoleManager.new shuffle2 room.players.keys).getRole p →
        (startGame room shuffle1 now sockets).2.2.filter (fun o => decide (o.1 = Dest.socket p))
          = (startGame room shuffle2 now sockets).2.2.filter
              (fun o => decide (o.1 = Dest.socket p))) ∧
      (∀ room1 room2 : Room α, room1.players = room2.players →
        getPublicPlayerList room1 = getPublicPlayerList room2) := by
  refine ⟨?_, ?_, ?_, ?_⟩
  · intro o ho
    unfold startGame at ho ⊢
    by_cases h1 : room.players.size < MIN_PLAYERS
    · simp [h1] at ho
    · by_cases h2 : room.players.size > MAX_PLAYERS
      · simp [h1, h2] at ho
      · simp only [h1, h2, if_false, List.mem_filterMap] at ho ⊢
        obtain ⟨e, he, hoe⟩ := ho
        by_cases hs : sockets.has e.1 = true
        · simp only [hs, if_true, Option.some.injEq] at hoe
          exact ⟨e.1, _, List.mem_map_of_mem Prod.fst he, rfl, rfl, hoe.symm⟩
        · simp [hs] at hoe
  · intro hok hp hs
    unfold startGame at hok ⊢
    by_cases h1 : room.players.size < MIN_PLAYERS
    · simp [h1] at hok
    · by_cases h2 : room.players.size > MAX_PLAYERS
      · simp [h1, h2] at hok
      · simp only [h1, h2, if_false, List.mem_filterMap]
        have hmem : p ∈ room.players.keys := by
          by_contra hnot
          rw [← JsMap.get_eq_none_iff] at hnot
          simp [JsMap.has, hnot] at hp
        obtain ⟨e, he, hep⟩ := List.mem_map.1 hmem
        refine ⟨e, he, ?_⟩
        rw [hep]
        simp only [hs, if_true]
        rfl
  · intro hrole
    unfold startGame
    by_cases h1 : room.players.size < MIN_PLAYERS
    · simp [h1]
    · by_cases h2 : room.players.size > MAX_PLAYERS
      · simp [h1, h2]
      · simp only [h1, h2, if_false]
        exact filter_unicast room.players sockets
          (fun q => Msg.gameStart ((RoleManager.new shuffle1 room.players.keys).getRole q)
            (ShrineManager.new : ShrineManager α).getPublicState (getPublicPlayerList room)
            GAME_DURATION)
          (fun q => Msg.gameStart ((RoleManager.new shuffle2 room.players.keys).getRole q)
            (ShrineManager.new : ShrineManager α).getPublicState (getPublicPlayerList room)
            GAME_DURATION) p
          (by simp only [hrole])
  · intro room1 room2 h
    simp only [getPublicPlayerList, h]

end GameStart

section Divergences

/-- C3 on the code. In a playing room with faith 50 and shrine 0 unlit,
participant 1 lights shrine 0 without completing the ritual. When 1 is the
hollow the room is told `faithUpdate` 50, when 1 is a villager `faithUpdate` 60:
the broadcast faith value differs with the actor's role. -/
theorem shrineInteraction_faithUpdate_depends_on_role :
    (handleShrineInteraction (Example.roomWithFaith 50) 1 0).map (fun r => (r.2.1.phase, r.2.2))
        = some (Phase.playing,
            [(Dest.room, Msg.shrineLit 0 1), (Dest.room, Msg.faithUpdate 50)]) ∧
      (handleShrineInteraction (Example.roomWithFaithSwapped 50) 1 0).map
          (fun r => (r.2.1.phase, r.2.2))
        = some (Phase.playing,
            [(Dest.room, Msg.shrineLit 0 1), (Dest.room, Msg.faithUpdate 60)]) := by
  constructor
  · simp [handleShrineInteraction, Example.roomWithFaith,
      Example.playingRoom, RoleManager.getRole, JsMap.get, ShrineManager.lightShrine,
      ShrineManager.getShrine, ShrineManager.new, LightResult.success, GameState.addFaith,
      GameState.new, ShrineManager.isRitualComplete]
  · simp [handleShrineInteraction, Example.roomWithFaithSwapped, Example.roomWithFaith,
      Example.playingRoom, RoleManager.getRole, JsMap.get, ShrineManager.lightShrine,
      ShrineManager.getShrine, ShrineManager.new, LightResult.success, GameState.addFaith,
      GameState.new, ShrineManager.isRitualComplete]
    norm_num

/-- C9 on the code. `handlePositionUpdate` never changes the phase and emits
only `playerMoved`. In the started session, participant 2 reports a position
off every blessed zone at 1 s and again at 61 s: the faith pool is drained to 0,
`isFaithDepleted()` holds, the phase is still playing and no `gameEnd` is sent. -/
theorem positionUpdate_never_ends_game :
    (∀ (room room1 : Room Nat) (playerId : Nat) (position : Vec3) (rotation : ℚ) (now : Int)
        (outs : List (Out Nat)),
        handlePositionUpdate room playerId position rotation now = some (room1, outs) →
        room1.phase = room.phase ∧
          ∀ o ∈ outs, o = (Dest.room, Msg.playerMoved playerId position rotation)) ∧
      GameState.isOnBlessedPath (GameState.new 3 0) ⟨100, 0, 100⟩ = false ∧
      ((onPosition Example.playing 2 ⟨100, 0, 100⟩ 0 1000).bind
          (fun r => onPosition r.1 2 ⟨100, 0, 100⟩ 0 61000)).map
          (fun r => (r.1.room.phase,
            r.1.room.gameState.map (fun gs => (gs.faith, gs.isFaithDepleted)), r.2))
        = some (Phase.playing, some (0, true),
            [(Dest.room, Msg.playerMoved 2 ⟨100, 0, 100⟩ 0)]) := by
  refine ⟨?_, ?_, ?_⟩
  · intro room room1 playerId position rotation now outs h
    unfold handlePositionUpdate at h
    cases hp : room.players.get playerId with
    | none =>
      simp only [hp, Option.some.injEq, Prod.mk.injEq] at h
      obtain ⟨h1, h2⟩ := h
      subst h1 h2
      simp
    | some player =>
      cases hg : room.gameState with
      | none => simp [hp, hg] at h
      | some gs =>
        simp only [hp, hg, Option.some.injEq, Prod.mk.injEq] at h
        obtain ⟨h1, h2⟩ := h
        subst h1 h2
        simp
  · simp [GameState.isOnBlessedPath, GameState.new]
    norm_num
  · have h : Example.playing.room = Example.playingRoom := rfl
    have hj : Example.playing.joined = [1, 2, 3] := rfl
    simp [onPosition, h, hj, JsSet.has, handlePositionUpdate, Example.playingRoom, JsMap.get,
      JsMap.set, GameState.new, GameState.isOnBlessedPath, GameState.drainFaith,
      GameState.isFaithDepleted]
    norm_num

/-- C10 on the code. The session that ended by timeout still holds its three
participants, all with the ready flag set; a `playerReady` event from
participant 1 runs `startGame` again and the phase is playing. -/
theorem playerReady_restarts_ended_room :
    Example.ended.map (fun s => s.room.phase) = some Phase.ended ∧
      Example.ended.map (fun s => (s.room.players.keys, s.room.players.all (fun e => e.2.ready)))
        = some ([1, 2, 3], true) ∧
      Example.ended.map (fun s => (onPlayerReady s 1 id 700000).1.room.phase)
        = some Phase.playing := by
  decide

end Divergences

/-! ### Activation: rejections, success and the frozen record -/

namespace ShrineManager

variable {α : Type}

theorem getShrine_run_out_of_range (calls : List (LightCall α)) (shrineId : Int)
    (h : shrineId < 0 ∨ 7 ≤ shrineId) :
    ((ShrineManager.new : ShrineManager α).run calls).getShrine shrineId = none := by
  unfold getShrine
  by_cases h0 : 0 ≤ shrineId
  · simp only [h0, if_true]
    rw [List.getElem?_eq_none_iff, run_length, new_length]
    omega
  · simp [h0]

theorem getShrine_run_in_range (calls : List (LightCall α)) (shrineId : Int)
    (h0 : 0 ≤ shrineId) (h7 : shrineId < 7) :
    ∃ s, ((ShrineManager.new : ShrineManager α).run calls).getShrine shrineId = some s ∧
      ((ShrineManager.new : ShrineManager α).run calls).shrines[shrineId.toNat]? = some s := by
  have hlt : shrineId.toNat < ((ShrineManager.new : ShrineManager α).run calls).shrines.length := by
    rw [run_length, new_length]
    omega
  refine ⟨((ShrineManager.new : ShrineManager α).run calls).shrines[shrineId.toNat], ?_, ?_⟩
  · simp [getShrine, h0, List.getElem?_eq_getElem hlt]
  · exact List.getElem?_eq_getElem hlt

theorem lightShrine_of_none (sm : ShrineManager α) (shrineId : Int) (playerId : α) (role : Role)
    (h : sm.getShrine shrineId = none) :
    sm.lightShrine shrineId playerId role = (LightResult.error "Invalid shrine", sm) := by
  simp [lightShrine, h]

theorem lightShrine_of_lit (sm : ShrineManager α) (shrineId : Int) (playerId : α) (role : Role)
    (s : Shrine α) (h : sm.getShrine shrineId = some s) (hl : s.lit = true) :
    sm.lightShrine shrineId playerId role = (LightResult.error "Shrine already lit", sm) := by
  simp [lightShrine, h, hl]

end ShrineManager

section ShrineRejection

variable {α : Type} [DecidableEq α]

theorem handleShrineInteraction_of_error (room : Room α) (rm : RoleManager α)
    (sm : ShrineManager α) (playerId : α) (shrineId : Int) (msg : String)
    (hphase : room.phase = Phase.playing) (hrm : room.roleManager = some rm)
    (hsm : room.shrineManager = some sm)
    (herr : sm.lightShrine shrineId playerId (rm.getRole playerId) = (LightResult.error msg, sm)) :
    handleShrineInteraction room playerId shrineId = some (some (LightResult.error msg), room, []) := by
  obtain ⟨id, players, gso, rmo, smo, vmo, phase, timer, startTime⟩ := room
  simp only at hphase hrm hsm
  subst hphase hrm hsm
  simp [handleShrineInteraction, herr, LightResult.success]

/-- C14. On a manager reached from the fresh one, `lightShrine` with an id
outside 0..6 returns the error Invalid shrine, and with the id of a shrine whose
lit flag is true the error Shrine already lit; the manager is returned as it
was, and `handleShrineInteraction` in a playing room then returns that error
with the room unchanged (faith included) and no message. -/
theorem lightShrine_rejections_change_nothing (calls : List (LightCall α)) (shrineId : Int)
    (playerId : α) :
    (∀ role, shrineId < 0 ∨ 7 ≤ shrineId →
        ((ShrineManager.new : ShrineManager α).run calls).lightShrine shrineId playerId role
          = (LightResult.error "Invalid shrine", (ShrineManager.new : ShrineManager α).run calls)) ∧
      (∀ role s, ((ShrineManager.new : ShrineManager α).run calls).getShrine shrineId = some s →
        s.lit = true →
        ((ShrineManager.new : ShrineManager α).run calls).lightShrine shrineId playerId role
          = (LightResult.error "Shrine already lit",
              (ShrineManager.new : ShrineManager α).run calls)) ∧
      (∀ (room : Room α) (rm : RoleManager α), room.phase = Phase.playing →
        room.roleManager = some rm →
        room.shrineManager = some ((ShrineManager.new : ShrineManager α).run calls) →
        ((shrineId < 0 ∨ 7 ≤ shrineId) →
          handleShrineInteraction room playerId shrineId
            = some (some (LightResult.error "Invalid shrine"), room, [])) ∧
        (∀ s, ((ShrineManager.new : ShrineManager α).run calls).getShrine shrineId = some s →
          s.lit = true →
          handleShrineInteraction room playerId shrineId
            = some (some (LightResult.error "Shrine already lit"), room, []))) := by
  refine ⟨?_, ?_, ?_⟩
  · intro role h
    exact ShrineManager.lightShrine_of_none _ _ _ _ (ShrineManager.getShrine_run_out_of_range calls _ h)
  · intro role s hs hl
    exact ShrineManager.lightShrine_of_lit _ _ _ _ s hs hl
  · intro room rm hphase hrm hsm
    refine ⟨?_, ?_⟩
    · intro h
      exact handleShrineInteraction_of_error room rm _ playerId shrineId _ hphase hrm hsm
        (ShrineManager.lightShrine_of_none _ _ _ _
          (ShrineManager.getShrine_run_out_of_range calls _ h))
    · intro s hs hl
      exact handleShrineInteraction_of_error room rm _ playerId shrineId _ hphase hrm hsm
        (ShrineManager.lightShrine_of_lit _ _ _ _ s hs hl)

end ShrineRejection

namespace ShrineManager

variable {α : Type}

/-- C15. On a manager reached from the fresh one, for an id in 0..6 whose
shrine is unlit, `lightShrine` succeeds, returns valid = (role is villager),
writes lit = true, litBy = actor and that valid flag into the record of the
shrine, and leaves every other record as it was. -/
theorem lightShrine_unlit_succeeds (calls : List (LightCall α)) (shrineId : Int) (playerId : α)
    (role : Role) (h0 : 0 ≤ shrineId) (h7 : shrineId < 7)
    (hunlit : ∀ s, ((ShrineManager.new : ShrineManager α).run calls).getShrine shrineId = some s →
      s.lit = false) :
    ∃ s, ((ShrineManager.new : ShrineManager α).run calls).getShrine shrineId = some s ∧
      (((ShrineManager.new : ShrineManager α).run calls).lightShrine shrineId playerId role).1
        = LightResult.ok shrineId (decide (role = Role.villager)) ∧
      (((ShrineManager.new : ShrineManager α).run calls).lightShrine shrineId playerId
          role).2.shrines[shrineId.toNat]?
        = some { s with lit := true, litBy := some playerId,
                        valid := decide (role = Role.villager) } ∧
      ∀ j : Nat, (j : Int) ≠ shrineId →
        (((ShrineManager.new : ShrineManager α).run calls).lightShrine shrineId playerId
            role).2.shrines[j]?
          = ((ShrineManager.new : ShrineManager α).run calls).shrines[j]? := by
  obtain ⟨s, hget, hidx⟩ := getShrine_run_in_range calls shrineId h0 h7
  have hl : s.lit = false := hunlit s hget
  have hid : shrineId = ((shrineId.toNat : Nat) : Int) := by omega
  refine ⟨s, hget, ?_, ?_, ?_⟩
  · cases role <;> simp [lightShrine, hget, hl]
  · have := lightShrine_getElem? _ shrineId playerId role shrineId.toNat s hidx
    rw [this]
    simp [← hid, hl]
  · intro j hj
    cases hsj : ((ShrineManager.new : ShrineManager α).run calls).shrines[j]? with
    | none => exact lightShrine_getElem?_none _ _ _ _ _ hsj
    | some t =>
      rw [lightShrine_getElem? _ shrineId playerId role j t hsj]
      have hne : ¬(shrineId = (j : Int)) := fun h => hj h.symm
      simp [hne]

/-- C15, for shrine 0 of the fresh manager lit by participant 1 as a villager. -/
theorem lightShrine_unlit_succeeds_witness :
    ∃ s, ((ShrineManager.new : ShrineManager Nat).run []).getShrine 0 = some s ∧
      (((ShrineManager.new : ShrineManager Nat).run []).lightShrine 0 1 Role.villager).1
        = LightResult.ok 0 true :=
  have h := lightShrine_unlit_succeeds (α := Nat) [] 0 1 Role.villager (by decide) (by decide)
    (by
      intro s hs
      simp [run, getShrine, ShrineManager.new] at hs
      rw [← hs])
  match h with
  | ⟨s, hs, hres, _⟩ => ⟨s, hs, by simpa using hres⟩

/-- C16. In every state reached from the fresh manager each shrine has
valid only if lit; a call changes a shrine's valid flag only when it turns that
shrine's lit flag from false to true; and a record whose lit flag is true is the
same after any further calls. -/
theorem valid_implies_lit_and_frozen (calls : List (LightCall α)) :
    (∀ s ∈ ((ShrineManager.new : ShrineManager α).run calls).shrines,
        s.valid = true → s.lit = true) ∧
      (∀ (c : LightCall α) (j : Nat) (s s1 : Shrine α),
        ((ShrineManager.new : ShrineManager α).run calls).shrines[j]? = some s →
        ((ShrineManager.new : ShrineManager α).run (calls ++ [c])).shrines[j]? = some s1 →
        s1.valid ≠ s.valid → s.lit = false ∧ s1.lit = true) ∧
      (∀ (more : List (LightCall α)) (j : Nat) (s : Shrine α),
        ((ShrineManager.new : ShrineManager α).run calls).shrines[j]? = some s →
        s.lit = true →
        ((ShrineManager.new : ShrineManager α).run (calls ++ more)).shrines[j]? = some s) := by
  refine ⟨?_, ?_, ?_⟩
  · intro s hs hv
    obtain ⟨j, hjlt, hjs⟩ := List.getElem_of_mem hs
    rw [run_length, new_length] at hjlt
    have hsj : ((ShrineManager.new : ShrineManager α).run calls).shrines[j]? = some s := by
      rw [List.getElem?_eq_some]
      exact ⟨by rw [run_length, new_length]; exact hjlt, hjs⟩
    obtain ⟨s0, hs0, hl0, hv0⟩ := new_getElem? (α := α) j hjlt
    rcases run_of_unlit calls _ j s0 hs0 hl0 with ⟨hr, _⟩ | ⟨c, r, _, _, _, hr, _⟩
    · rw [hr] at hsj
      cases hsj
      rw [hv0] at hv
      cases hv
    · rw [hr] at hsj
      cases hsj
      rfl
  · intro c j s s1 hs hs1 hne
    rw [run_append] at hs1
    simp only [run] at hs1
    rw [lightShrine_getElem? _ c.shrineId c.playerId c.role j s hs] at hs1
    by_cases hc : c.shrineId = (j : Int) ∧ s.lit = false
    · simp only [hc, and_self, if_true, Option.some.injEq] at hs1
      subst hs1
      exact ⟨hc.2, rfl⟩
    · simp only [hc, if_false, Option.some.injEq] at hs1
      subst hs1
      exact absurd rfl hne
  · intro more j s hs hl
    rw [run_append]
    exact (run_of_lit more _ j s hs hl).1

end ShrineManager

/-! ### Casting ballots -/

namespace VotingManager

variable {α : Type} [DecidableEq α]

/-- C17. `castVote(voter, target)` succeeds exactly when the round is active,
the voter is eligible, the target is null or eligible, and the target is not
the voter; a success records the ballot; otherwise the error is the first that
applies among Voting not active, Invalid voter, Invalid target, Cannot vote for
yourself, and the manager (ballots and eligible set) is returned as it was. -/
theorem castVote_succeeds_iff (vm : VotingManager α) (voterId : α) (targetId : Option α) :
    ((vm.castVote voterId targetId).1 = CastResult.ok ↔
        vm.isVotingActive = true ∧ voterId ∈ vm.playerIds ∧
          (∀ t, targetId = some t → t ∈ vm.playerIds) ∧ targetId ≠ some voterId) ∧
      ((vm.castVote voterId targetId).1 = CastResult.ok →
        (vm.castVote voterId targetId).2 = { vm with votes := vm.votes.set voterId targetId }) ∧
      (vm.isVotingActive = false →
        vm.castVote voterId targetId = (CastResult.error "Voting not active", vm)) ∧
      (vm.isVotingActive = true → voterId ∉ vm.playerIds →
        vm.castVote voterId targetId = (CastResult.error "Invalid voter", vm)) ∧
      (vm.isVotingActive = true → voterId ∈ vm.playerIds →
        (∃ t, targetId = some t ∧ t ∉ vm.playerIds) →
        vm.castVote voterId targetId = (CastResult.error "Invalid target", vm)) ∧
      (vm.isVotingActive = true → voterId ∈ vm.playerIds →
        (∀ t, targetId = some t → t ∈ vm.playerIds) → targetId = some voterId →
        vm.castVote voterId targetId = (CastResult.error "Cannot vote for yourself", vm)) := by
  unfold castVote
  cases hact : vm.isVotingActive with
  | false => simp
  | true =>
    by_cases hv : voterId ∈ vm.playerIds
    · cases targetId with
      | none => simp [JsSet.has, hv]
      | some t =>
        by_cases ht : t ∈ vm.playerIds
        · by_cases hself : t = voterId
          · subst hself
            simp [JsSet.has, hv]
          · have hself2 : ¬(some t = some voterId) := by simpa using hself
            simp [JsSet.has, hv, ht, hself, hself2]
        · have hne : t ≠ voterId := fun h => ht (h ▸ hv)
          simp [JsSet.has, hv, ht, hne]
    · simp [JsSet.has, hv]

/-- C18, as the code has it. For every ledger state and every id A,
`castVote(A, A)` fails and returns the manager as it was, so A's ballot is
unchanged; the error is Cannot vote for yourself when the round is active and A
is eligible, Voting not active when the round is not active, and Invalid voter
when the round is active and A is not eligible. -/
theorem castVote_self_always_fails (vm : VotingManager α) (a : α) :
    (vm.castVote a (some a)).1 ≠ CastResult.ok ∧ (vm.castVote a (some a)).2 = vm ∧
      ((vm.castVote a (some a)).2.votes.get a = vm.votes.get a) ∧
      (vm.isVotingActive = true → a ∈ vm.playerIds →
        (vm.castVote a (some a)).1 = CastResult.error "Cannot vote for yourself") ∧
      (vm.isVotingActive = false →
        (vm.castVote a (some a)).1 = CastResult.error "Voting not active") ∧
      (vm.isVotingActive = true → a ∉ vm.playerIds →
        (vm.castVote a (some a)).1 = CastResult.error "Invalid voter") := by
  unfold castVote
  cases hact : vm.isVotingActive with
  | false => simp
  | true =>
    by_cases hv : a ∈ vm.playerIds
    · simp [JsSet.has, hv]
    · simp [JsSet.has, hv]

/-- C18 fails as stated: on a ledger whose round has not been started,
`castVote(1, 1)` fails with Voting not active, not with the self-target error. -/
theorem castVote_self_inactive_round :
    ((VotingManager.new [1, 2, 3]).castVote 1 (some 1)).1 = CastResult.error "Voting not active" ∧
      ((VotingManager.new [1, 2, 3]).castVote 1 (some 1)).1
        ≠ CastResult.error "Cannot vote for yourself" := by
  decide

/-- C19, as the code has it. With three distinct eligible voters A, B, C,
after `startVoting`, `castVote(A, B)` and `castVote(C, null)` are recorded and
`castVote(B, B)` is rejected, so `resolveVotes` counts 1 for B and 1 for skip
and returns exiled = null with tie = true. -/
theorem resolveVotes_after_rejected_self_vote (a b c : α) (hab : a ≠ b) (hac : a ≠ c)
    (hbc : b ≠ c) :
    (((VotingManager.new [a, b, c]).startVoting.castVote a (some b)).2.castVote b (some b)).1
        = CastResult.error "Cannot vote for yourself" ∧
      (((((VotingManager.new [a, b, c]).startVoting.castVote a (some b)).2.castVote b
          (some b)).2.castVote c none).2).votes = [(a, some b), (c, none)] ∧
      (((((VotingManager.new [a, b, c]).startVoting.castVote a (some b)).2.castVote b
          (some b)).2.castVote c none).2).resolveVotes.1
        = { votes := [(a, some b), (c, none)], exiled := none, tie := true, skipVotes := 1,
            voteCounts := [(b, 1)] } := by
  have hba : b ≠ a := fun h => hab h.symm
  have hca : c ≠ a := fun h => hac h.symm
  have hcb : c ≠ b := fun h => hbc h.symm
  have hids : JsSet.ofList [a, b, c] = [a, b, c] := by
    simp [JsSet.ofList, JsSet.add, hab, hac, hbc, hba, hca, hcb]
  refine ⟨?_, ?_, ?_⟩ <;>
    simp [startVoting, castVote, hids, JsSet.has, JsMap.set, resolveVotes, countVotes,
      countBallot, tally, tallyStep, JsMap.get, hab, hac, hbc, hba, hca, hcb, VotingManager.new]

/-- C19, as the code has it, at the ids 1, 2, 3. -/
theorem resolveVotes_after_rejected_self_vote_witness :
    (((VotingManager.new [1, 2, 3]).startVoting.castVote 1 (some 2)).2.castVote 2 (some 2)).1
      = CastResult.error "Cannot vote for yourself" :=
  (resolveVotes_after_rejected_self_vote 1 2 3 (by decide) (by decide) (by decide)).1

/-- C19 fails as stated: after the ballots `castVote(1, 2)`, `castVote(2, 2)`,
`castVote(3, null)` the count of 2 is 1, not 2, and `resolveVotes` returns
exiled = null with tie = true, not exiled = 2 with tie = false. -/
theorem resolveVotes_self_vote_not_counted :
    Example.ballotsWithSelfVote.resolveVotes.1.voteCounts = [(2, 1)] ∧
      Example.ballotsWithSelfVote.resolveVotes.1.skipVotes = 1 ∧
      Example.ballotsWithSelfVote.resolveVotes.1.exiled ≠ some 2 ∧
      Example.ballotsWithSelfVote.resolveVotes.1.tie ≠ false := by
  decide

end VotingManager

/-! ### The ledger invariant behind `allVotesIn` -/

namespace JsSet

variable {K : Type} [DecidableEq K]

theorem nodup_add (s : JsSet K) (k : K) (h : s.Nodup) : (s.add k).Nodup := by
  unfold add
  split
  · exact h
  · rename_i hk
    exact List.Nodup.append h (List.nodup_singleton k) (by simpa using hk)

theorem nodup_foldl_add (l : List K) (s : JsSet K) (h : s.Nodup) : (l.foldl add s).Nodup := by
  induction l generalizing s with
  | nil => exact h
  | cons k l ih => exact ih _ (nodup_add s k h)

theorem nodup_ofList (l : List K) : (ofList l).Nodup :=
  nodup_foldl_add l [] List.nodup_nil

theorem nodup_delete (s : JsSet K) (k : K) (h : s.Nodup) : (s.delete k).Nodup :=
  List.Nodup.filter _ h

end JsSet

namespace JsMap

variable {K V : Type} [DecidableEq K]

theorem keys_delete (m : JsMap K V) (k : K) :
    (m.delete k).keys = m.keys.filter (fun x => decide (x ≠ k)) := by
  simp only [delete, keys, List.filter_map]
  rfl

theorem has_iff_mem_keys (m : JsMap K V) (k : K) : m.has k = true ↔ k ∈ m.keys := by
  rw [has, ← not_iff_not, ← get_eq_none_iff]
  cases m.get k <;> simp

end JsMap

namespace VotingManager

variable {α : Type} [DecidableEq α]

/-- The invariant of a ledger: no id is listed twice, no voter has two ballots,
and while the round is active every ballot is one of an eligible voter. -/
theorem invariant_runOps (ops : List (VoteOp α)) (vm : VotingManager α)
    (h : vm.playerIds.Nodup ∧ vm.votes.keys.Nodup ∧
      (vm.isVotingActive = true → ∀ k ∈ vm.votes.keys, k ∈ vm.playerIds)) :
    (vm.runOps ops).playerIds.Nodup ∧ (vm.runOps ops).votes.keys.Nodup ∧
      ((vm.runOps ops).isVotingActive = true →
        ∀ k ∈ (vm.runOps ops).votes.keys, k ∈ (vm.runOps ops).playerIds) := by
  induction ops generalizing vm with
  | nil => exact h
  | cons op ops ih =>
    obtain ⟨hids, hkeys, hsub⟩ := h
    simp only [runOps, List.foldl_cons]
    apply ih
    cases op with
    | startVoting =>
      refine ⟨hids, ?_, ?_⟩
      · simp [applyOp, startVoting, JsMap.keys]
      · intro _ k hk
        simp [applyOp, startVoting, JsMap.keys] at hk
    | castVote voterId targetId =>
      simp only [applyOp]
      by_cases hok : (vm.castVote voterId targetId).1 = CastResult.ok
      · have hstate : (vm.castVote voterId targetId).2
            = { vm with votes := vm.votes.set voterId targetId } := by
          revert hok
          unfold castVote
          split
          · simp
          · split
            · simp
            · split
              · simp
              · split <;> simp
        have hvoter : voterId ∈ vm.playerIds := by
          revert hok
          unfold castVote
          split
          · simp
          · split
            · simp
            · rename_i hv
              intro _
              simpa [JsSet.has] using hv
        rw [hstate]
        refine ⟨hids, JsMap.nodup_keys_set _ _ _ hkeys, ?_⟩
        intro hact k hk
        simp only [JsMap.keys_set] at hk
        split at hk
        · exact hsub hact k hk
        · rcases List.mem_append.1 hk with hk | hk
          · exact hsub hact k hk
          · simp only [List.mem_singleton] at hk
            rw [hk]
            exact hvoter
      · have hstate : (vm.castVote voterId targetId).2 = vm := by
          revert hok
          unfold castVote
          split
          · simp
          · split
            · simp
            · split
              · simp
              · split <;> simp
        rw [hstate]
        exact ⟨hids, hkeys, hsub⟩
    | resolveVotes =>
      simp only [applyOp, resolveVotes]
      split
      · refine ⟨JsSet.nodup_delete _ _ hids, hkeys, ?_⟩
        intro hact
        simp at hact
      · refine ⟨hids, hkeys, ?_⟩
        intro hact
        simp at hact
    | removePlayer playerId =>
      simp only [applyOp, removePlayer]
      refine ⟨JsSet.nodup_delete _ _ hids, ?_, ?_⟩
      · rw [JsMap.keys_delete]
        exact List.Nodup.filter _ hkeys
      · intro hact k hk
        rw [JsMap.keys_delete, List.mem_filter] at hk
        simp only [JsSet.delete, List.mem_filter]
        exact ⟨hsub hact k hk.1, hk.2⟩

/-- C20, as the code has it. In every state reached from a new ledger through
`startVoting`, `castVote`, `resolveVotes` and `removePlayer` in which the round
is active, `allVotesIn()` is true exactly when every id in the eligible set has
a ballot recorded. -/
theorem allVotesIn_iff_of_active (playerIds : List α) (ops : List (VoteOp α))
    (hactive : ((VotingManager.new playerIds).runOps ops).isVotingActive = true) :
    ((VotingManager.new playerIds).runOps ops).allVotesIn = true ↔
      ∀ p ∈ ((VotingManager.new playerIds).runOps ops).playerIds,
        ((VotingManager.new playerIds).runOps ops).votes.has p = true := by
  obtain ⟨hids, hkeys, hsub⟩ := invariant_runOps ops (VotingManager.new playerIds)
    ⟨JsSet.nodup_ofList playerIds, by simp [VotingManager.new, JsMap.keys],
     by simp [VotingManager.new, JsMap.keys]⟩
  have hsub1 := hsub hactive
  generalize (VotingManager.new playerIds).runOps ops = vm at hids hkeys hsub1
  have hlen : vm.votes.size = vm.votes.keys.length := by simp [JsMap.size, JsMap.keys]
  simp only [allVotesIn, decide_eq_true_eq, hlen, JsSet.size, JsMap.has_iff_mem_keys]
  have hsp : List.Subperm vm.votes.keys vm.playerIds := List.subperm_of_subset hkeys hsub1
  constructor
  · intro hle p hp
    exact (hsp.perm_of_length_le hle).symm.subset hp
  · intro hall
    exact (List.subperm_of_subset hids hall).length_le

/-- C20, as the code has it, in a round over the ids 1, 2, 3 after one ballot. -/
theorem allVotesIn_iff_of_active_witness :
    ((VotingManager.new [1, 2, 3]).runOps
        [VoteOp.startVoting, VoteOp.castVote 1 (some 2)]).allVotesIn = true ↔
      ∀ p ∈ ((VotingManager.new [1, 2, 3]).runOps
          [VoteOp.startVoting, VoteOp.castVote 1 (some 2)]).playerIds,
        ((VotingManager.new [1, 2, 3]).runOps
          [VoteOp.startVoting, VoteOp.castVote 1 (some 2)]).votes.has p = true :=
  allVotesIn_iff_of_active [1, 2, 3] [VoteOp.startVoting, VoteOp.castVote 1 (some 2)]
    (by decide)

/-- C20 fails as stated: after a round over the ids 1, 2, 3, 4 in which 4 cast
no ballot and 2 was exiled, the ledger holds three ballots (of 1, 2 and 3) for
the three eligible ids 1, 3, 4: `allVotesIn()` is true although 4 has no
ballot. -/
theorem allVotesIn_counts_ballot_of_exiled :
    Example.ledgerAfterExile.playerIds = [1, 3, 4] ∧
      Example.ledgerAfterExile.votes.keys = [1, 2, 3] ∧
      Example.ledgerAfterExile.allVotesIn = true ∧
      Example.ledgerAfterExile.votes.has 4 = false := by
  decide

end VotingManager

/-! ### The faith pool -/

namespace GameState

/-- C13, as the code has it. For a faith level in [0,100] and an amount that
is not negative, `drainFaith` and `addFaith` store the value they return and it
lies in [0,100]; `drainFaith(150)` from 100 yields 0 and `addFaith(150)` from 0
yields 100. -/
theorem faith_stays_in_bounds (gs : GameState) (amount : ℚ) (h0 : 0 ≤ gs.faith)
    (h100 : gs.faith ≤ 100) (ha : 0 ≤ amount) :
    ((gs.drainFaith amount).2.faith = (gs.drainFaith amount).1 ∧
        0 ≤ (gs.drainFaith amount).1 ∧ (gs.drainFaith amount).1 ≤ 100) ∧
      ((gs.addFaith amount).2.faith = (gs.addFaith amount).1 ∧
        0 ≤ (gs.addFaith amount).1 ∧ (gs.addFaith amount).1 ≤ 100) ∧
      (gs.faith = 100 → (gs.drainFaith 150).1 = 0 ∧ (gs.drainFaith 150).2.faith = 0) ∧
      (gs.faith = 0 → (gs.addFaith 150).1 = 100 ∧ (gs.addFaith 150).2.faith = 100) := by
  refine ⟨⟨rfl, ?_, ?_⟩, ⟨rfl, ?_, ?_⟩, ?_, ?_⟩
  · exact le_max_left _ _
  · simp only [drainFaith]
    exact max_le (by norm_num) (by linarith)
  · simp only [addFaith]
    exact le_min (by norm_num) (by linarith)
  · exact min_le_left _ _
  · intro h
    simp only [drainFaith, h]
    norm_num
  · intro h
    simp only [addFaith, h]
    norm_num

/-- C13, as the code has it, for a drain of 15 from the initial level 100. -/
theorem faith_stays_in_bounds_witness :
    0 ≤ ((GameState.new 3 0).drainFaith 15).1 ∧ ((GameState.new 3 0).drainFaith 15).1 ≤ 100 :=
  (faith_stays_in_bounds (GameState.new 3 0) 15 (by norm_num [GameState.new])
    (by norm_num [GameState.new]) (by norm_num)).1.2

/-- C13 fails as stated: with a negative amount `drainFaith(-50)` from 100
stores and returns 150, and `addFaith(-50)` from 0 stores and returns -50. -/
theorem faith_leaves_bounds_on_negative_amount :
    ((GameState.new 3 0).drainFaith (-50)).1 = 150 ∧
      ((GameState.new 3 0).drainFaith (-50)).2.faith = 150 ∧
      ¬((GameState.new 3 0).drainFaith (-50)).1 ≤ 100 ∧
      ({ GameState.new 3 0 with faith := 0 }.addFaith (-50)).1 = -50 ∧
      ¬0 ≤ ({ GameState.new 3 0 with faith := 0 }.addFaith (-50)).1 := by
  simp only [drainFaith, addFaith, GameState.new]
  norm_num

end GameState

section LaterEvents

/-- C11 on the code. In the started session participant 1 is the hollow. A
further `playerReady` event from participant 1, with a shuffle that reverses the
list, runs `startGame` again: the phase is playing as before and the role map is
a new one in which participant 3 is the hollow and 1 a villager. -/
theorem playerReady_reassigns_roles :
    Example.playing.room.phase = Phase.playing ∧
      Example.playing.room.roleManager.map (fun rm => rm.roles)
        = some [(1, Role.hollow), (2, Role.villager), (3, Role.villager)] ∧
      (onPlayerReady Example.playing 1 List.reverse 5000).1.room.phase = Phase.playing ∧
      (onPlayerReady Example.playing 1 List.reverse 5000).1.room.roleManager.map
          (fun rm => rm.roles)
        = some [(3, Role.hollow), (2, Role.villager), (1, Role.villager)] ∧
      (onPlayerReady Example.playing 1 List.reverse 5000).1.room.startTime = some 5000 := by
  decide

/-- C12 on the code. After `resolveVoting` has exiled the villager 2 (the room
`exiledRoom`, where 2 is no longer in `room.players`), a `lightShrine` event
from the connection of 2 lights shrine 0 validly in the name of 2 and raises the
faith from 85 to 95, and a `callVote` event from it moves the room to the voting
phase with the ballots cleared. -/
theorem exiled_participant_still_acts :
    (resolveVoting (Example.votingRoom [(1, some 2), (3, some 2), (2, none)]) [1, 2, 3]).map
        (fun r => r.1) = some Example.exiledRoom ∧
      Example.exiledRoom.players.keys = [1, 3] ∧
      (onLightShrine Example.afterExile 2 0).map
          (fun r => (r.1.room.shrineManager.map (fun sm => sm.getTrueState.head?),
            r.1.room.gameState.map (fun gs => gs.faith)))
        = some (some (some { id := 0, name := "Church", lit := true, valid := true,
                             litBy := some 2 }),
            some 95) ∧
      (onCallVote Example.afterExile 2 700000).map
          (fun r => (r.1.room.phase, r.1.room.votingManager.map (fun vm => vm.votes)))
        = some (Phase.voting, some []) := by
  refine ⟨?_, by decide, ?_, by decide⟩
  · simp [resolveVoting, Example.votingRoom, Example.exiledRoom, Example.playingRoom,
      VotingManager.resolveVotes, VotingManager.countVotes, VotingManager.countBallot,
      VotingManager.tally, VotingManager.tallyStep, JsMap.get, JsMap.set, JsSet.delete,
      RoleManager.getRole, JsMap.delete, GameState.drainFaith, GameState.new, JsSet.has]
    norm_num
  · simp [onLightShrine, Example.afterExile, Example.exiledRoom, Example.playingRoom, JsSet.has,
      handleShrineInteraction, RoleManager.getRole, JsMap.get, ShrineManager.lightShrine,
      ShrineManager.getShrine, ShrineManager.new, LightResult.success, GameState.addFaith,
      GameState.new, ShrineManager.isRitualComplete, ShrineManager.getTrueState]
    norm_num

end LaterEvents

/-! ### Re-voting and resolving twice -/

namespace JsMap

variable {K V : Type} [DecidableEq K]

theorem set_set (m : JsMap K V) (k : K) (a b : V) : (m.set k a).set k b = m.set k b := by
  induction m with
  | nil => simp [set]
  | cons e m ih =>
    obtain ⟨k0, v0⟩ := e
    by_cases h : k0 = k
    · simp [set, h]
    · simp [set, h, ih]

theorem length_set_eq (m : JsMap K V) (k : K) (a b : V) :
    (m.set k a).length = (m.set k b).length := by
  induction m with
  | nil => simp [set]
  | cons e m ih =>
    obtain ⟨k0, v0⟩ := e
    by_cases h : k0 = k
    · simp [set, h]
    · simp [set, h, ih]

end JsMap

namespace VotingManager

variable {α : Type} [DecidableEq α]

theorem castVote_of_valid (vm : VotingManager α) (voterId : α) (targetId : Option α)
    (hact : vm.isVotingActive = true) (hv : voterId ∈ vm.playerIds)
    (ht : ∀ t, targetId = some t → t ∈ vm.playerIds) (hself : targetId ≠ some voterId) :
    vm.castVote voterId targetId
      = (CastResult.ok, { vm with votes := vm.votes.set voterId targetId }) := by
  unfold castVote
  cases targetId with
  | none => simp [hact, JsSet.has, hv]
  | some t =>
    have ht1 : t ∈ vm.playerIds := ht t rfl
    have hne : ¬(t = voterId) := fun h => hself (by rw [h])
    simp [hact, JsSet.has, hv, ht1, hne]

/-- C21. In an active round, for an eligible voter v and two valid targets,
`castVote(v, t1)` followed by `castVote(v, t2)` succeeds twice and leaves the
ledger in the state `castVote(v, t2)` alone gives: the ballot of v is t2, every
other ballot is as before, and the number of ballots is that after one cast. -/
theorem castVote_twice_replaces (vm : VotingManager α) (v : α) (t1 t2 : Option α)
    (hact : vm.isVotingActive = true) (hv : v ∈ vm.playerIds)
    (h1 : ∀ t, t1 = some t → t ∈ vm.playerIds) (h1s : t1 ≠ some v)
    (h2 : ∀ t, t2 = some t → t ∈ vm.playerIds) (h2s : t2 ≠ some v) :
    (vm.castVote v t1).1 = CastResult.ok ∧
      (vm.castVote v t1).2.castVote v t2 = vm.castVote v t2 ∧
      ((vm.castVote v t1).2.castVote v t2).1 = CastResult.ok ∧
      ((vm.castVote v t1).2.castVote v t2).2.votes.get v = some t2 ∧
      (∀ u, u ≠ v → ((vm.castVote v t1).2.castVote v t2).2.votes.get u = vm.votes.get u) ∧
      ((vm.castVote v t1).2.castVote v t2).2.votes.size = (vm.castVote v t1).2.votes.size ∧
      ((vm.castVote v t1).2.castVote v t2).2.playerIds = vm.playerIds := by
  have e1 := castVote_of_valid vm v t1 hact hv h1 h1s
  have e2 := castVote_of_valid vm v t2 hact hv h2 h2s
  have e12 := castVote_of_valid (vm.castVote v t1).2 v t2 (by rw [e1]; exact hact)
    (by rw [e1]; exact hv) (by rw [e1]; exact h2) h2s
  have hstate : (vm.castVote v t1).2.castVote v t2 = vm.castVote v t2 := by
    rw [e12, e2, e1]
    simp [JsMap.set_set]
  refine ⟨by rw [e1], hstate, by rw [hstate, e2], ?_, ?_, ?_, ?_⟩
  · rw [hstate, e2]
    exact JsMap.get_set_self _ _ _
  · intro u hu
    rw [hstate, e2]
    exact JsMap.get_set_of_ne _ _ hu
  · rw [hstate, e2, e1]
    exact JsMap.length_set_eq _ _ _ _
  · rw [hstate, e2]

/-- C21, in a round over the ids 1, 2, 3 where 1 first accuses 2 and then 3. -/
theorem castVote_twice_replaces_witness :
    (((VotingManager.new [1, 2, 3]).startVoting.castVote 1 (some 2)).2.castVote 1 (some 3))
      = (VotingManager.new [1, 2, 3]).startVoting.castVote 1 (some 3) :=
  (castVote_twice_replaces (VotingManager.new [1, 2, 3]).startVoting 1 (some 2) (some 3)
    (by decide) (by decide) (by decide) (by decide) (by decide) (by decide)).2.1

theorem resolveVotes_votes (vm : VotingManager α) :
    vm.resolveVotes.2.votes = vm.votes ∧ vm.resolveVotes.2.isVotingActive = false := by
  unfold resolveVotes
  constructor <;> (simp only; split <;> rfl)

/-- C22, as the code has it. `resolveVotes` closes the round and has no error
result: a second call on the closed round returns the same outcome again and
leaves the ledger (ballots, eligible set, flag) as the first call left it. -/
theorem resolveVotes_twice (vm : VotingManager α) :
    vm.resolveVotes.2.isVotingActive = false ∧
      vm.resolveVotes.2.resolveVotes = vm.resolveVotes ∧
      vm.resolveVotes.2.resolveVotes.2.votes = vm.resolveVotes.2.votes ∧
      vm.resolveVotes.2.resolveVotes.2.playerIds = vm.resolveVotes.2.playerIds := by
  have hfix : vm.resolveVotes.2.resolveVotes = vm.resolveVotes := by
    unfold resolveVotes
    simp only
    cases hex : (if (tally (countVotes vm.votes).1 (countVotes vm.votes).2).tie = true then none
        else (tally (countVotes vm.votes).1 (countVotes vm.votes).2).exiled) with
    | none => simp [hex]
    | some e => simp [hex, JsSet.delete, List.filter_filter]
  refine ⟨(resolveVotes_votes vm).2, hfix, ?_, ?_⟩
  · rw [hfix]
  · rw [hfix]

/-- C22 fails as stated: on the round where 1 and 3 accuse 2, a second
`resolveVotes` after the round is closed returns an outcome again, with
exiled = 2, and not an error. -/
theorem resolveVotes_second_call_returns_outcome :
    (Example.ledgerAfterExile.isVotingActive = false) ∧
      Example.ledgerAfterExile.resolveVotes.1.exiled = some 2 ∧
      Example.ledgerAfterExile.resolveVotes.1.votes = [(1, some 2), (2, some 1), (3, some 2)] ∧
      Example.ledgerAfterExile.resolveVotes.2 = Example.ledgerAfterExile := by
  decide

end VotingManager

/-! ### Votes, reveal and vessel on the example sessions -/

section SessionDivergences

/-- C23 on the code. In the vote round of the example session participant 1
sends `castVote` with itself as target: `VotingManager.castVote` rejects the
ballot and the ballots stay empty, yet the handler broadcasts `voteCast` with
voter 1 and 3 votes remaining to the room, and sends nothing to the caller. -/
theorem rejected_ballot_is_broadcast :
    Example.voting.map (fun s => (s.room.phase,
        s.room.votingManager.map (fun vm => ((vm.castVote 1 (some 1)).1, vm.votes))))
      = some (Phase.voting, some (CastResult.error "Cannot vote for yourself", [])) ∧
    (Example.voting.bind (fun s => onCastVote s 1 (some 1))).map
        (fun r => (r.1.room.votingManager.map (fun vm => vm.votes), r.1.room.phase, r.2))
      = some (some [], Phase.voting, [(Dest.room, Msg.voteCast 1 3)]) := by
  constructor <;> rfl

/-- C24 on the code. In the example room participant 1 is the hollow. When the
ballots of 2 and 3 exile 1, `resolveVoting` deletes 1 from `room.players` and
then `endGame` reveals the roles of the remaining participants only: the
`gameEnd` message lists 2 and 3 as villagers and no hollow. The shrine states
are the true ones of all seven shrines. -/
theorem reveal_omits_exiled_hollow :
    (resolveVoting (Example.votingRoom [(2, some 1), (3, some 1)]) [1, 2, 3]).map
        (fun r => (r.1.phase, r.1.players.keys, r.2))
      = some (Phase.ended, [2, 3],
          [(Dest.room, Msg.votingResult [(2, some 1), (3, some 1)] (some 1) false),
           (Dest.socket 1, Msg.youWereExiled),
           (Dest.room, Msg.gameEnd Winner.villagers EndReason.hollow_exiled
              [(2, Role.villager), (3, Role.villager)]
              (ShrineManager.new : ShrineManager Nat).getTrueState)]) ∧
      (Example.votingRoom [(2, some 1), (3, some 1)]).roleManager.map
          (fun rm => (rm.getAllRoles, rm.getHollowId))
        = some ([(1, Role.hollow), (2, Role.villager), (3, Role.villager)], some 1) := by
  constructor <;> decide

/-- C27 on the code. Participant 2 picks the vessel up and walks next to the
altar (`carrierAtAltar`); `placeVessel` succeeds, so `vesselPlaced` is true and
nobody carries the vessel. A later `pickupVessel` from participant 3 then makes
3 carry the vessel, while `vesselPlaced` is still true. -/
theorem vessel_picked_up_after_placement :
    onPosition (onPickupVessel Example.playing 2).1 2 ⟨0, 8 / 5, 49⟩ 0 1000
        = some (Example.carrierAtAltar, [(Dest.room, Msg.playerMoved 2 ⟨0, 8 / 5, 49⟩ 0)]) ∧
      onPlaceVessel Example.carrierAtAltar 2
        = some (Example.vesselPlacedSession, [(Dest.room, Msg.vesselPlaced 2)]) ∧
      Example.vesselPlacedSession.room.gameState.map (fun gs => gs.vesselPlaced) = some true ∧
      vesselHolders Example.vesselPlacedSession.room = 0 ∧
      ((onPickupVessel Example.vesselPlacedSession 3).1.room.phase,
        (onPickupVessel Example.vesselPlacedSession 3).1.room.gameState.map
          (fun gs => gs.vesselPlaced),
        ((onPickupVessel Example.vesselPlacedSession 3).1.room.players.get 3).map
          (fun p => p.carrying),
        (onPickupVessel Example.vesselPlacedSession 3).2)
      = (Phase.playing, some true, some (some Item.vessel),
          [(Dest.room, Msg.vesselPickedUp 3)]) := by
  refine ⟨?_, ?_, rfl, rfl, rfl⟩
  · have h : (onPickupVessel Example.playing 2).1
        = { Example.carrierAtAltar with
            room := { Example.carrierAtAltar.room with
              players := [
                (1, { name := "Ana", position := ⟨0, 8 / 5, 0⟩, rotation := 0, ready := true,
                      carrying := none, lastUpdate := none }),
                (2, { name := "Ben", position := ⟨0, 8 / 5, 0⟩, rotation := 0, ready := true,
                      carrying := some Item.vessel, lastUpdate := none }),
                (3, { name := "Cy", position := ⟨0, 8 / 5, 0⟩, rotation := 0, ready := true,
                      carrying := none, lastUpdate := none }) ] } } := rfl
    rw [h]
    simp [onPosition, Example.carrierAtAltar, Example.playingRoom, JsSet.has,
      handlePositionUpdate, JsMap.get, JsMap.set, GameState.new, GameState.isOnBlessedPath,
      GameState.drainFaith]
  · simp [onPlaceVessel, Example.carrierAtAltar, Example.playingRoom, JsSet.has, JsMap.get,
      ShrineManager.getAltarPosition, ShrineManager.new, JsMap.set,
      ShrineManager.isRitualComplete, Example.vesselPlacedSession, GameState.new]
    norm_num

/-- C30 on the code. A first round is called at time 0 and resolved at once
because all three ballots are in; a second round is called at time 20000. The
timeout of the first round fires at time 30000, finds the phase voting and
resolves the second round, 10 seconds after its start and with no ballot cast;
the timeout of the second round is still pending. -/
theorem stale_timeout_resolves_later_round :
    Example.secondRound.map (fun s => (s.room.phase, s.voteTimeouts,
        s.room.votingManager.map (fun vm => (vm.votes, vm.isVotingActive, vm.allVotesIn))))
      = some (Phase.voting, [30000, 50000], some ([], true, false)) ∧
    (Example.secondRound.bind (fun s => onVoteTimeout s 30000)).map
        (fun r => (r.1.room.phase, r.1.voteTimeouts,
          r.1.room.votingManager.map (fun vm => vm.isVotingActive), r.2))
      = some (Phase.playing, [50000], some false,
          [(Dest.room, Msg.votingResult [] none false), (Dest.room, Msg.votingEnded)]) := by
  constructor <;> rfl

end SessionDivergences

/-! ### Completing the ritual and leaving the room -/

section CompletionAndDisconnect

variable {α : Type} [DecidableEq α]

theorem lightShrine_of_failure (sm : ShrineManager α) (shrineId : Int) (playerId : α)
    (role : Role) (h : (sm.lightShrine shrineId playerId role).1.success = false) :
    (sm.lightShrine shrineId playerId role).2 = sm := by
  revert h
  unfold ShrineManager.lightShrine
  cases sm.getShrine shrineId with
  | none => simp
  | some s =>
    cases hl : s.lit <;> simp [hl, LightResult.success]

/-- What `handleShrineInteraction` does in a playing room when the activation
succeeds. -/
theorem handleShrineInteraction_of_success (room : Room α) (rm : RoleManager α)
    (sm : ShrineManager α) (gs : GameState) (playerId : α) (shrineId : Int)
    (hphase : room.phase = Phase.playing) (hrm : room.roleManager = some rm)
    (hsm : room.shrineManager = some sm) (hgs : room.gameState = some gs)
    (hsucc : (sm.lightShrine shrineId playerId (rm.getRole playerId)).1.success = true) :
    ∃ room1 outs,
      handleShrineInteraction room playerId shrineId
        = some (some (sm.lightShrine shrineId playerId (rm.getRole playerId)).1, room1, outs) ∧
      room1.gameState
        = some (if rm.getRole playerId = Role.villager then
            { gs with faith := min 100 (gs.faith + 10) } else gs) ∧
      room1.shrineManager = some (sm.lightShrine shrineId playerId (rm.getRole playerId)).2 ∧
      ((sm.lightShrine shrineId playerId (rm.getRole playerId)).2.isRitualComplete = true →
        room1.phase = Phase.ended ∧
        ∃ roles states,
          (Dest.room, Msg.gameEnd Winner.villagers EndReason.ritual_complete roles states)
            ∈ outs) ∧
      ((sm.lightShrine shrineId playerId (rm.getRole playerId)).2.isRitualComplete = false →
        room1.phase = Phase.playing) ∧
      (Dest.room, Msg.faithUpdate (if rm.getRole playerId = Role.villager then
          min 100 (gs.faith + 10) else gs.faith)) ∈ outs := by
  obtain ⟨id, players, gso, rmo, smo, vmo, phase, timer, startTime⟩ := room
  simp only at hphase hrm hsm hgs
  subst hphase hrm hsm hgs
  cases hcomp : (sm.lightShrine shrineId playerId (rm.getRole playerId)).2.isRitualComplete with
  | false =>
    simp only [handleShrineInteraction, hsucc, hcomp, ne_eq, not_true_eq_false, if_false,
      if_true, Bool.false_eq_true]
    refine ⟨_, _, rfl, ?_, ?_, ?_, ?_, ?_⟩
    · cases rm.getRole playerId <;> simp [GameState.addFaith]
    · rfl
    · intro h
      cases h
    · intro _
      rfl
    · cases rm.getRole playerId <;> simp [GameState.addFaith]
  | true =>
    have hend := endGame_of_started
      ({ id := id, players := players,
         gameState := some (if rm.getRole playerId = Role.villager then
            (gs.addFaith 10).2 else gs),
         roleManager := some rm,
         shrineManager := some (sm.lightShrine shrineId playerId (rm.getRole playerId)).2,
         votingManager := vmo, phase := Phase.playing, timer := timer,
         startTime := startTime } : Room α)
      EndReason.ritual_complete rm _ rfl rfl
    simp only [handleShrineInteraction, hsucc, hcomp, ne_eq, not_true_eq_false, if_false,
      if_true, hend]
    refine ⟨_, _, rfl, ?_, ?_, ?_, ?_, ?_⟩
    · cases rm.getRole playerId <;> simp [GameState.addFaith]
    · rfl
    · intro _
      refine ⟨rfl, players.map (fun p => (p.1, rm.getRole p.1)),
        (sm.lightShrine shrineId playerId (rm.getRole playerId)).2.getTrueState, ?_⟩
      simp [endVerdict]
    · intro h
      cases h
    · cases rm.getRole playerId <;> simp [GameState.addFaith]

/-- C25. In a playing room whose ritual is not yet complete, a `lightShrine`
event after which all seven shrines are valid ends the game: the phase is ended
and `gameEnd` is broadcast with winner villagers and reason ritual_complete,
whatever `vesselPlaced` is. Every successful activation by a villager sets the
faith to min(100, faith + 10), and one by the hollow leaves it as it was. -/
theorem ritual_complete_ends_game (room : Room α) (rm : RoleManager α) (sm : ShrineManager α)
    (gs : GameState) (playerId : α) (shrineId : Int)
    (hphase : room.phase = Phase.playing) (hrm : room.roleManager = some rm)
    (hsm : room.shrineManager = some sm) (hgs : room.gameState = some gs) :
    (sm.isRitualComplete = false →
      (sm.lightShrine shrineId playerId (rm.getRole playerId)).2.isRitualComplete = true →
      ∃ result room1 outs,
        handleShrineInteraction room playerId shrineId = some (some result, room1, outs) ∧
        result.success = true ∧ room1.phase = Phase.ended ∧
        room1.gameState.map (fun g => g.vesselPlaced) = some gs.vesselPlaced ∧
        ∃ roles states,
          (Dest.room, Msg.gameEnd Winner.villagers EndReason.ritual_complete roles states)
            ∈ outs) ∧
    ((sm.lightShrine shrineId playerId (rm.getRole playerId)).1.success = true →
      ∃ result room1 outs,
        handleShrineInteraction room playerId shrineId = some (some result, room1, outs) ∧
        (rm.getRole playerId = Role.villager →
          room1.gameState.map (fun g => g.faith) = some (min 100 (gs.faith + 10))) ∧
        (rm.getRole playerId = Role.hollow →
          room1.gameState.map (fun g => g.faith) = some gs.faith) ∧
        (Dest.room, Msg.faithUpdate (if rm.getRole playerId = Role.villager then
            min 100 (gs.faith + 10) else gs.faith)) ∈ outs) := by
  constructor
  · intro hbefore hafter
    have hsucc : (sm.lightShrine shrineId playerId (rm.getRole playerId)).1.success = true := by
      cases hs : (sm.lightShrine shrineId playerId (rm.getRole playerId)).1.success with
      | true => rfl
      | false =>
        rw [lightShrine_of_failure sm shrineId playerId _ hs, hbefore] at hafter
        cases hafter
    obtain ⟨room1, outs, hres, hgs1, _, hdone, _, _⟩ :=
      handleShrineInteraction_of_success room rm sm gs playerId shrineId hphase hrm hsm hgs hsucc
    refine ⟨_, room1, outs, hres, hsucc, (hdone hafter).1, ?_, (hdone hafter).2⟩
    rw [hgs1]
    cases rm.getRole playerId <;> simp
  · intro hsucc
    obtain ⟨room1, outs, hres, hgs1, _, _, _, hout⟩ :=
      handleShrineInteraction_of_success room rm sm gs playerId shrineId hphase hrm hsm hgs hsucc
    refine ⟨_, room1, outs, hres, ?_, ?_, hout⟩
    · intro hr
      rw [hgs1, hr]
      simp
    · intro hr
      rw [hgs1, hr]
      simp

/-- C25, for participant 2 (a villager) lighting shrine 0 of the example room
at faith 50: the faith becomes 60. -/
theorem ritual_complete_ends_game_witness :
    ∃ result room1 outs,
      handleShrineInteraction (Example.roomWithFaith 50) 2 0 = some (some result, room1, outs) ∧
      room1.gameState.map (fun g => g.faith) = some (min 100 (50 + 10)) :=
  match (ritual_complete_ends_game (Example.roomWithFaith 50) _ _ _ 2 0 rfl rfl rfl rfl).2
      (by rfl) with
  | ⟨result, room1, outs, hres, hvillager, _, _⟩ =>
    ⟨result, room1, outs, hres, hvillager (by rfl)⟩

/-- C28. When the socket of a bound connection disconnects while the room is
playing, the participant is deleted from `room.players`; if fewer than 2 remain
the phase is ended and `gameEnd` is broadcast with winner hollow and reason
not_enough_players, and if 2 or more remain the phase is still playing and no
`gameEnd` is sent. -/
theorem disconnect_below_floor_ends_game (srv : Server α) (socketId : α) (rm : RoleManager α)
    (sm : ShrineManager α) (hjoined : srv.joined.has socketId = true)
    (hphase : srv.room.phase = Phase.playing) (hrm : srv.room.roleManager = some rm)
    (hsm : srv.room.shrineManager = some sm) :
    ∃ srv1 outs, onDisconnect srv socketId = some (srv1, outs) ∧
      srv1.room.players = srv.room.players.delete socketId ∧
      ((srv.room.players.delete socketId).size < 2 →
        srv1.room.phase = Phase.ended ∧
        ∃ roles states,
          (Dest.room, Msg.gameEnd Winner.hollow EndReason.not_enough_players roles states)
            ∈ outs) ∧
      (2 ≤ (srv.room.players.delete socketId).size →
        srv1.room.phase = Phase.playing ∧
        ∀ w r roles states, (Dest.room, Msg.gameEnd w r roles states) ∉ outs) := by
  obtain ⟨room, joined, voteTimeouts⟩ := srv
  obtain ⟨id, players, gso, rmo, smo, vmo, phase, timer, startTime⟩ := room
  simp only at hjoined hphase hrm hsm
  subst hphase hrm hsm
  by_cases hsize : (JsMap.delete players socketId).size < 2
  · have hend := endGame_of_started
      ({ id := id, players := JsMap.delete players socketId, gameState := gso,
         roleManager := some rm, shrineManager := some sm, votingManager := vmo,
         phase := Phase.playing, timer := timer, startTime := startTime } : Room α)
      EndReason.not_enough_players rm sm rfl rfl
    simp only [onDisconnect, hjoined, if_true, hsize, and_self, hend, Option.map_some']
    refine ⟨_, _, rfl, rfl, ?_, ?_⟩
    · intro _
      refine ⟨rfl, (JsMap.delete players socketId).map (fun p => (p.1, rm.getRole p.1)),
        sm.getTrueState, ?_⟩
      simp [endVerdict]
    · intro h2
      omega
  · simp only [onDisconnect, hjoined, if_true, hsize, and_false, if_false]
    refine ⟨_, _, rfl, rfl, ?_, ?_⟩
    · intro h
      first
        | exact absurd h hsize
        | exact h.elim
    · intro _
      refine ⟨rfl, ?_⟩
      intro w r roles states
      cases hp : JsMap.get players socketId with
      | none => simp
      | some p =>
        by_cases hc : p.carrying = some Item.vessel <;> simp [hc]

/-- C28, for participant 1 leaving the started session of three: two remain
and the phase is still playing. -/
theorem disconnect_below_floor_ends_game_witness :
    ∃ srv1 outs, onDisconnect Example.playing 1 = some (srv1, outs) ∧
      srv1.room.phase = Phase.playing :=
  match disconnect_below_floor_ends_game Example.playing 1 _ _ (by decide) (by decide) rfl rfl with
  | ⟨srv1, outs, h, _, _, hstay⟩ => ⟨srv1, outs, h, (hstay (by decide)).1⟩

end CompletionAndDisconnect

/-! ### At most one vessel holder -/

section VesselInvariant

variable {α : Type} [DecidableEq α]

theorem JsMap.countP_set {V : Type} (m : JsMap α V) (k : α) (v : V) (g : V → Bool) :
    (m.set k v).countP (fun e => g e.2) + (m.get k).toList.countP g
      = m.countP (fun e => g e.2) + (if g v = true then 1 else 0) := by
  induction m with
  | nil => simp [JsMap.set, JsMap.get, List.countP_cons]
  | cons e m ih =>
    obtain ⟨k0, v0⟩ := e
    by_cases h : k0 = k
    · simp only [JsMap.set, JsMap.get, h, if_true, List.countP_cons, Option.toList_some,
        List.countP_nil]
      omega
    · simp only [JsMap.set, JsMap.get, h, if_false, List.countP_cons]
      omega

theorem JsMap.countP_delete_le {V : Type} (m : JsMap α V) (k : α) (f : α × V → Bool) :
    (m.delete k).countP f ≤ m.countP f :=
  (List.filter_sublist _).countP_le _

theorem vesselHolders_set_le (room : Room α) (k : α) (v : Player)
    (hv : v.carrying ≠ some Item.vessel) :
    vesselHolders { room with players := room.players.set k v } ≤ vesselHolders room := by
  have h := JsMap.countP_set room.players k v (fun p => decide (p.carrying = some Item.vessel))
  simp only [hv, decide_False, Bool.false_eq_true, if_false, Nat.add_zero] at h
  simp only [vesselHolders]
  omega

theorem vesselHolders_set_same (room : Room α) (k : α) (p v : Player)
    (hget : room.players.get k = some p) (hc : v.carrying = p.carrying) :
    vesselHolders { room with players := room.players.set k v } = vesselHolders room := by
  have h := JsMap.countP_set room.players k v (fun p => decide (p.carrying = some Item.vessel))
  simp only [hget, Option.toList_some, List.countP_cons, List.countP_nil, hc, Nat.zero_add] at h
  simp only [vesselHolders]
  omega

theorem vesselHolders_set_le_succ (room : Room α) (k : α) (v : Player) :
    vesselHolders { room with players := room.players.set k v } ≤ vesselHolders room + 1 := by
  have h := JsMap.countP_set room.players k v (fun p => decide (p.carrying = some Item.vessel))
  simp only [vesselHolders]
  split at h <;> omega

theorem vesselHolders_set_drop (room : Room α) (k : α) (p v : Player)
    (hget : room.players.get k = some p) (hp : p.carrying = some Item.vessel)
    (hv : v.carrying ≠ some Item.vessel) :
    vesselHolders { room with players := room.players.set k v } + 1 = vesselHolders room := by
  have h := JsMap.countP_set room.players k v (fun p => decide (p.carrying = some Item.vessel))
  simp only [hget, Option.toList_some, List.countP_cons, List.countP_nil, hp, hv, decide_True,
    decide_False, Bool.false_eq_true, if_false, if_true, Nat.zero_add, Nat.add_zero] at h
  simp only [vesselHolders]
  omega

theorem vesselHolders_delete_le (room : Room α) (k : α) :
    vesselHolders { room with players := room.players.delete k } ≤ vesselHolders room :=
  JsMap.countP_delete_le _ _ _

theorem endGame_players (room room1 : Room α) (reason : EndReason) (outs : List (Out α))
    (h : endGame room reason = some (room1, outs)) : room1.players = room.players := by
  unfold endGame at h
  try dsimp only at h
  split at h
  · simp only [Option.some.injEq, Prod.mk.injEq] at h
    rw [← h.1]
  · cases h

theorem startGame_players (room : Room α) (shuffle : List α → List α) (now : Int)
    (sockets : JsSet α) : (startGame room shuffle now sockets).2.1.players = room.players := by
  unfold startGame
  split
  · rfl
  · split <;> rfl

theorem handlePositionUpdate_vesselHolders (room room1 : Room α) (playerId : α)
    (position : Vec3) (rotation : ℚ) (now : Int) (outs : List (Out α))
    (h : handlePositionUpdate room playerId position rotation now = some (room1, outs)) :
    vesselHolders room1 = vesselHolders room := by
  unfold handlePositionUpdate at h
  cases hp : room.players.get playerId with
  | none =>
    simp only [hp, Option.some.injEq, Prod.mk.injEq] at h
    rw [← h.1]
  | some player =>
    cases hg : room.gameState with
    | none => simp [hp, hg] at h
    | some gs =>
      simp only [hp, hg, Option.some.injEq, Prod.mk.injEq] at h
      rw [← h.1]
      exact vesselHolders_set_same room playerId player _ hp rfl

theorem handleShrineInteraction_players (room room1 : Room α) (playerId : α) (shrineId : Int)
    (res : Option LightResult) (outs : List (Out α))
    (h : handleShrineInteraction room playerId shrineId = some (res, room1, outs)) :
    room1.players = room.players := by
  unfold handleShrineInteraction at h
  try dsimp only at h
  split at h
  · simp only [Option.some.injEq, Prod.mk.injEq] at h
    rw [← h.2.1]
  · try dsimp only at h
    split at h
    · try dsimp only at h
      split at h
      · try dsimp only at h
        split at h
        · cases h
        · try dsimp only at h
          split at h
          · try dsimp only at h
            split at h
            · cases h
            · rename_i hend
              simp only [Option.some.injEq, Prod.mk.injEq] at h
              rw [← h.2.1, endGame_players _ _ _ _ hend]
          · simp only [Option.some.injEq, Prod.mk.injEq] at h
            rw [← h.2.1]
      · simp only [Option.some.injEq, Prod.mk.injEq] at h
        rw [← h.2.1]
    · cases h

theorem resolveVoting_vesselHolders (room room1 : Room α) (sockets : JsSet α)
    (outs : List (Out α)) (h : resolveVoting room sockets = some (room1, outs)) :
    vesselHolders room1 ≤ vesselHolders room := by
  unfold resolveVoting at h
  try dsimp only at h
  split at h
  · cases h
  · try dsimp only at h
    split at h
    · try dsimp only at h
      split at h
      · cases h
      · try dsimp only at h
        split at h
        · try dsimp only at h
          split at h
          · cases h
          · rename_i hend
            simp only [Option.some.injEq, Prod.mk.injEq] at h
            rw [← h.1]
            simp only [vesselHolders, endGame_players _ _ _ _ hend]
            exact JsMap.countP_delete_le _ _ _
        · try dsimp only at h
          split at h
          · cases h
          · try dsimp only at h
            split at h
            · try dsimp only at h
              split at h
              · cases h
              · rename_i hend
                simp only [Option.some.injEq, Prod.mk.injEq] at h
                rw [← h.1]
                simp only [vesselHolders, endGame_players _ _ _ _ hend]
                exact JsMap.countP_delete_le _ _ _
            · simp only [Option.some.injEq, Prod.mk.injEq] at h
              rw [← h.1]
              exact JsMap.countP_delete_le _ _ _
    · simp only [Option.some.injEq, Prod.mk.injEq] at h
      rw [← h.1]
      exact le_refl _

end VesselInvariant

section VesselInvariantEvents

variable {α : Type} [DecidableEq α]

theorem vesselHolders_congr (room1 room2 : Room α) (h : room1.players = room2.players) :
    vesselHolders room1 = vesselHolders room2 := by
  simp only [vesselHolders, h]

theorem onJoinRoom_vesselHolders (srv : Server α) (socketId : α) (playerName : String) :
    vesselHolders (onJoinRoom srv socketId playerName).1.room ≤ vesselHolders srv.room := by
  unfold onJoinRoom
  dsimp only
  split
  · exact le_refl _
  · split
    · exact le_refl _
    · exact vesselHolders_set_le srv.room socketId _ (by simp)

theorem onPlayerReady_vesselHolders (srv : Server α) (socketId : α) (shuffle : List α → List α)
    (now : Int) :
    vesselHolders (onPlayerReady srv socketId shuffle now).1.room = vesselHolders srv.room := by
  unfold onPlayerReady
  split
  · rfl
  · cases hp : srv.room.players.get socketId with
    | none => rfl
    | some player =>
      have hset := vesselHolders_set_same srv.room socketId player { player with ready := true }
        hp rfl
      dsimp only
      split
      · split
        · dsimp only
          rw [vesselHolders_congr _ _ (startGame_players _ _ _ _)]
          exact hset
        · dsimp only
          rw [vesselHolders_congr _ _ (startGame_players _ _ _ _)]
          exact hset
      · exact hset

theorem onPickupVessel_vesselHolders (srv : Server α) (socketId : α)
    (hinv : vesselHolders srv.room ≤ 1) :
    vesselHolders (onPickupVessel srv socketId).1.room ≤ 1 := by
  unfold onPickupVessel
  split
  · exact hinv
  · dsimp only
    split
    · rename_i hfind _
      have hzero : vesselHolders srv.room = 0 := by
        simp only [vesselHolders, List.countP_eq_zero]
        exact List.find?_eq_none.1 hfind
      have := vesselHolders_set_le_succ srv.room socketId
        { (‹Player› : Player) with carrying := some Item.vessel }
      dsimp only at this ⊢
      omega
    · exact hinv

theorem onTransferVessel_vesselHolders (srv : Server α) (socketId targetPlayerId : α)
    (hinv : vesselHolders srv.room ≤ 1) :
    vesselHolders (onTransferVessel srv socketId targetPlayerId).1.room ≤ 1 := by
  unfold onTransferVessel
  split
  · exact hinv
  · split
    · rename_i player target hplayer htarget
      split
      · rename_i hcond
        have h1 := vesselHolders_set_drop srv.room socketId player { player with carrying := none }
          hplayer hcond.1 (by simp)
        have h2 := vesselHolders_set_le_succ
          { srv.room with players := srv.room.players.set socketId { player with carrying := none } }
          targetPlayerId { target with carrying := some Item.vessel }
        dsimp only at h1 h2 ⊢
        omega
      · exact hinv
    · exact hinv

theorem step_vesselHolders (srv srv1 : Server α) (e : Event α) (outs : List (Out α))
    (h : srv.step e = some (srv1, outs)) (hinv : vesselHolders srv.room ≤ 1) :
    vesselHolders srv1.room ≤ 1 := by
  cases e with
  | joinRoom socketId playerName =>
    simp only [Server.step, Option.some.injEq] at h
    have := onJoinRoom_vesselHolders srv socketId playerName
    rw [h] at this
    exact le_trans this hinv
  | playerReady socketId shuffle now =>
    simp only [Server.step, Option.some.injEq] at h
    have := onPlayerReady_vesselHolders srv socketId shuffle now
    rw [h] at this
    dsimp only at this
    omega
  | position socketId position rotation now =>
    simp only [Server.step, onPosition] at h
    split at h
    · cases hh : handlePositionUpdate srv.room socketId position rotation now with
      | none => simp [hh] at h
      | some r =>
        obtain ⟨room1, outs1⟩ := r
        simp only [hh, Option.map_some', Option.some.injEq, Prod.mk.injEq] at h
        rw [← h.1]
        dsimp only
        rw [handlePositionUpdate_vesselHolders _ _ _ _ _ _ _ hh]
        exact hinv
    · simp only [Option.some.injEq, Prod.mk.injEq] at h
      rw [← h.1]
      exact hinv
  | lightShrine socketId shrineId =>
    simp only [Server.step, onLightShrine] at h
    split at h
    · cases hh : handleShrineInteraction srv.room socketId shrineId with
      | none => simp [hh] at h
      | some r =>
        obtain ⟨res, room1, outs1⟩ := r
        simp only [hh, Option.map_some', Option.some.injEq, Prod.mk.injEq] at h
        rw [← h.1]
        dsimp only
        rw [vesselHolders_congr _ _ (handleShrineInteraction_players _ _ _ _ _ _ hh)]
        exact hinv
    · simp only [Option.some.injEq, Prod.mk.injEq] at h
      rw [← h.1]
      exact hinv
  | pickupVessel socketId =>
    simp only [Server.step, Option.some.injEq] at h
    have := onPickupVessel_vesselHolders srv socketId hinv
    rw [h] at this
    exact this
  | transferVessel socketId targetPlayerId =>
    simp only [Server.step, Option.some.injEq] at h
    have := onTransferVessel_vesselHolders srv socketId targetPlayerId hinv
    rw [h] at this
    exact this
  | placeVessel socketId =>
    simp only [Server.step, onPlaceVessel] at h
    split at h
    · simp only [Option.some.injEq, Prod.mk.injEq] at h
      rw [← h.1]
      exact hinv
    · split at h
      · simp only [Option.some.injEq, Prod.mk.injEq] at h
        rw [← h.1]
        exact hinv
      · rename_i player hplayer
        split at h
        · split at h
          · cases h
          · split at h
            · cases h
            · try dsimp only at h
              split at h
              · split at h
                · cases h
                · rename_i gs hgs
                  have hset := vesselHolders_set_le srv.room socketId
                    { player with carrying := none } (by simp)
                  try dsimp only at h
                  split at h
                  · cases hend : endGame
                        { srv.room with
                          players := srv.room.players.set socketId { player with carrying := none }
                          gameState := some { gs with vesselPlaced := true } }
                        EndReason.ritual_complete with
                    | none => simp [hend] at h
                    | some r =>
                      obtain ⟨room1, outs1⟩ := r
                      simp only [hend, Option.map_some', Option.some.injEq, Prod.mk.injEq] at h
                      rw [← h.1]
                      dsimp only
                      rw [vesselHolders_congr _ _ (endGame_players _ _ _ _ hend)]
                      exact le_trans hset hinv
                  · simp only [Option.some.injEq, Prod.mk.injEq] at h
                    rw [← h.1]
                    exact le_trans hset hinv
              · simp only [Option.some.injEq, Prod.mk.injEq] at h
                rw [← h.1]
                exact hinv
        · simp only [Option.some.injEq, Prod.mk.injEq] at h
          rw [← h.1]
          exact hinv
  | callVote socketId now =>
    simp only [Server.step, onCallVote] at h
    split at h
    · simp only [Option.some.injEq, Prod.mk.injEq] at h
      rw [← h.1]
      exact hinv
    · split at h
      · cases h
      · simp only [Option.some.injEq, Prod.mk.injEq] at h
        rw [← h.1]
        exact hinv
  | castVote socketId targetPlayerId =>
    simp only [Server.step, onCastVote] at h
    split at h
    · simp only [Option.some.injEq, Prod.mk.injEq] at h
      rw [← h.1]
      exact hinv
    · split at h
      · cases h
      · rename_i vm hvm
        try dsimp only at h
        split at h
        · cases hres : resolveVoting
              { srv.room with votingManager := some (vm.castVote socketId targetPlayerId).2 }
              srv.joined with
          | none => simp [hres] at h
          | some r =>
            obtain ⟨room1, outs1⟩ := r
            simp only [hres, Option.map_some', Option.some.injEq, Prod.mk.injEq] at h
            rw [← h.1]
            have := resolveVoting_vesselHolders _ _ _ _ hres
            exact le_trans this hinv
        · simp only [Option.some.injEq, Prod.mk.injEq] at h
          rw [← h.1]
          exact hinv
  | disconnect socketId =>
    simp only [Server.step, onDisconnect] at h
    split at h
    · have hdel := vesselHolders_delete_le srv.room socketId
      try dsimp only at h
      split at h
      · cases hend : endGame { srv.room with players := srv.room.players.delete socketId }
            EndReason.not_enough_players with
        | none => simp [hend] at h
        | some r =>
          obtain ⟨room1, outs1⟩ := r
          simp only [hend, Option.map_some', Option.some.injEq, Prod.mk.injEq] at h
          rw [← h.1]
          dsimp only
          rw [vesselHolders_congr _ _ (endGame_players _ _ _ _ hend)]
          exact le_trans hdel hinv
      · simp only [Option.some.injEq, Prod.mk.injEq] at h
        rw [← h.1]
        exact le_trans hdel hinv
    · simp only [Option.some.injEq, Prod.mk.injEq] at h
      rw [← h.1]
      exact hinv
  | timerTick now =>
    simp only [Server.step, onTimerTick] at h
    cases hh : gameTimerTick srv.room now with
    | none => simp [hh] at h
    | some r =>
      obtain ⟨room1, outs1⟩ := r
      simp only [hh, Option.map_some', Option.some.injEq, Prod.mk.injEq] at h
      rw [← h.1]
      dsimp only
      unfold gameTimerTick at hh
      split at hh
      · cases hh
      · try dsimp only at hh
        split at hh
        · rw [vesselHolders_congr _ _ (endGame_players _ _ _ _ hh)]
          exact hinv
        · simp only [Option.some.injEq, Prod.mk.injEq] at hh
          rw [← hh.1]
          exact hinv
  | voteTimeout now =>
    simp only [Server.step, onVoteTimeout] at h
    split at h
    · cases h
    · split at h
      · cases h
      · try dsimp only at h
        split at h
        · cases hres : resolveVoting srv.room srv.joined with
          | none => simp [hres] at h
          | some r =>
            obtain ⟨room1, outs1⟩ := r
            simp only [hres, Option.map_some', Option.some.injEq, Prod.mk.injEq] at h
            rw [← h.1]
            exact le_trans (resolveVoting_vesselHolders _ _ _ _ hres) hinv
        · simp only [Option.some.injEq, Prod.mk.injEq] at h
          rw [← h.1]
          exact hinv

theorem runEvents_vesselHolders (events : List (Event α)) (srv srv1 : Server α)
    (h : srv.runEvents events = some srv1) (hinv : vesselHolders srv.room ≤ 1) :
    vesselHolders srv1.room ≤ 1 := by
  induction events generalizing srv with
  | nil =>
    simp only [Server.runEvents, Option.some.injEq] at h
    rw [← h]
    exact hinv
  | cons e es ih =>
    simp only [Server.runEvents] at h
    cases hs : srv.step e with
    | none => simp [hs] at h
    | some r =>
      obtain ⟨srv2, outs⟩ := r
      simp only [hs] at h
      exact ih srv2 h (step_vesselHolders srv srv2 e outs hs hinv)

/-- C26. In every state reached from a new room by any sequence of events
(joins, ready signals, moves, shrine activations, vessel pickup, transfer and
placement, votes with their exiles, disconnects and timer callbacks, game
starts included) at most one participant of the room carries the vessel. -/
theorem at_most_one_vessel_holder (roomId : String) (events : List (Event α))
    (srv : Server α) (h : (Server.create roomId).runEvents events = some srv) :
    vesselHolders srv.room ≤ 1 :=
  runEvents_vesselHolders events (Server.create roomId) srv h (by simp [vesselHolders,
    Server.create, createRoom])

/-- C26, on a session of three: they join and get ready, participant 2 picks
the vessel up, hands it to 3, a vote exiles 1 and a late pickup follows. -/
theorem at_most_one_vessel_holder_witness :
    ∃ srv : Server Nat,
      (Server.create "ABCD").runEvents
          [Event.joinRoom 1 "Ana", Event.joinRoom 2 "Ben", Event.joinRoom 3 "Cy",
           Event.playerReady 1 id 0, Event.playerReady 2 id 0, Event.playerReady 3 id 0,
           Event.pickupVessel 2, Event.pickupVessel 1, Event.transferVessel 2 3,
           Event.callVote 1 0, Event.castVote 2 (some 1), Event.castVote 3 (some 1),
           Event.castVote 1 none, Event.pickupVessel 2] = some srv ∧
      vesselHolders srv.room ≤ 1 :=
  match h : (Server.create "ABCD").runEvents
      [Event.joinRoom 1 "Ana", Event.joinRoom 2 "Ben", Event.joinRoom 3 "Cy",
       Event.playerReady 1 id 0, Event.playerReady 2 id 0, Event.playerReady 3 id 0,
       Event.pickupVessel 2, Event.pickupVessel 1, Event.transferVessel 2 3,
       Event.callVote 1 0, Event.castVote 2 (some 1), Event.castVote 3 (some 1),
       Event.castVote 1 none, Event.pickupVessel 2] with
  | some srv => ⟨srv, rfl, at_most_one_vessel_holder "ABCD" _ srv h⟩
  | none => absurd h (by decide)

end VesselInvariantEvents

/-! ### The distance query -/

namespace ShrineManager

variable {α : Type}

theorem getNearbyShrine_eq_find (sm : ShrineManager α) (position : Vec3) (maxDistance : ℚ) :
    sm.getNearbyShrine position maxDistance
      = sm.shrines.find? (fun shrine =>
          decide (0 ≤ maxDistance ∧ distSq position shrine ≤ maxDistance * maxDistance)) :=
  rfl

/-- Twice the squared distances from a point to two places bound the squared
distance between the places. -/
theorem distSq_separation (position : Vec3) (s t : Shrine α) :
    (s.position.x - t.position.x) * (s.position.x - t.position.x) +
        (s.position.z - t.position.z) * (s.position.z - t.position.z)
      ≤ 2 * distSq position s + 2 * distSq position t := by
  unfold distSq
  nlinarith [sq_nonneg (2 * position.x - s.position.x - t.position.x),
    sq_nonneg (2 * position.z - s.position.z - t.position.z)]

theorem position_of_mem_run (calls : List (LightCall α)) (s : Shrine α)
    (h : s ∈ ((ShrineManager.new : ShrineManager α).run calls).shrines) :
    s.position = ⟨-20, 0, 0⟩ ∨ s.position = ⟨0, 0, 20⟩ ∨ s.position = ⟨20, 0, 0⟩ ∨
      s.position = ⟨0, 0, -20⟩ ∨ s.position = ⟨-30, 0, 30⟩ ∨ s.position = ⟨30, 0, 30⟩ ∨
      s.position = ⟨0, 5, 50⟩ := by
  have hst := static_run calls (ShrineManager.new : ShrineManager α)
  have hmem : (s.id, s.name, s.position)
      ∈ ((ShrineManager.new : ShrineManager α).run calls).shrines.map
          (fun s => (s.id, s.name, s.position)) :=
    List.mem_map_of_mem _ h
  rw [hst] at hmem
  simp only [ShrineManager.new, List.map_cons, List.map_nil, List.mem_cons, Prod.mk.injEq,
    List.mem_nil_iff, or_false] at hmem
  rcases hmem with h | h | h | h | h | h | h
  · exact Or.inl h.2.2
  · exact Or.inr (Or.inl h.2.2)
  · exact Or.inr (Or.inr (Or.inl h.2.2))
  · exact Or.inr (Or.inr (Or.inr (Or.inl h.2.2)))
  · exact Or.inr (Or.inr (Or.inr (Or.inr (Or.inl h.2.2))))
  · exact Or.inr (Or.inr (Or.inr (Or.inr (Or.inr (Or.inl h.2.2)))))
  · exact Or.inr (Or.inr (Or.inr (Or.inr (Or.inr (Or.inr h.2.2)))))

/-- Two shrines of a reachable manager that are both closer than the square
bound 200 to one point are at the same place. -/
theorem same_place_of_both_near (calls : List (LightCall α)) (position : Vec3) (s t : Shrine α)
    (hs : s ∈ ((ShrineManager.new : ShrineManager α).run calls).shrines)
    (ht : t ∈ ((ShrineManager.new : ShrineManager α).run calls).shrines)
    (hsd : distSq position s < 200) (htd : distSq position t < 200) :
    distSq position s = distSq position t := by
  have hsep := distSq_separation position s t
  have hps := position_of_mem_run calls s hs
  have hpt := position_of_mem_run calls t ht
  unfold distSq at hsd htd hsep ⊢
  rcases hps with h1 | h1 | h1 | h1 | h1 | h1 | h1 <;>
    rcases hpt with h2 | h2 | h2 | h2 | h2 | h2 | h2 <;>
    rw [h1] at hsd hsep ⊢ <;> rw [h2] at htd hsep ⊢ <;>
    simp only at hsd htd hsep ⊢ <;>
    first
      | rfl
      | (exfalso; linarith)

/-- C29, as the code has it. On every manager reached from the constructor,
`getNearbyShrine(position, maxDistance)` returns the first shrine in array order
whose horizontal x/z distance is at most `maxDistance`: every shrine before it
in the array is farther than `maxDistance`. It returns null exactly when no
shrine is within `maxDistance`. When `maxDistance` squared is below 200 the
returned shrine is the nearest of all. -/
theorem getNearbyShrine_first_in_range (calls : List (LightCall α)) (position : Vec3)
    (maxDistance : ℚ) :
    (∀ s, ((ShrineManager.new : ShrineManager α).run calls).getNearbyShrine position maxDistance
        = some s →
      0 ≤ maxDistance ∧ distSq position s ≤ maxDistance * maxDistance ∧
      ∃ before after,
        ((ShrineManager.new : ShrineManager α).run calls).shrines = before ++ s :: after ∧
        ∀ t ∈ before, maxDistance * maxDistance < distSq position t) ∧
    (((ShrineManager.new : ShrineManager α).run calls).getNearbyShrine position maxDistance = none
      ↔ ∀ s ∈ ((ShrineManager.new : ShrineManager α).run calls).shrines,
          ¬(0 ≤ maxDistance ∧ distSq position s ≤ maxDistance * maxDistance)) ∧
    (maxDistance * maxDistance < 200 →
      ∀ s, ((ShrineManager.new : ShrineManager α).run calls).getNearbyShrine position maxDistance
          = some s →
        ∀ t ∈ ((ShrineManager.new : ShrineManager α).run calls).shrines,
          distSq position s ≤ distSq position t) := by
  refine ⟨?_, ?_, ?_⟩
  · intro s h
    rw [getNearbyShrine_eq_find, List.find?_eq_some] at h
    obtain ⟨hin, before, after, hsplit, hbefore⟩ := h
    simp only [decide_eq_true_eq] at hin
    refine ⟨hin.1, hin.2, before, after, hsplit, ?_⟩
    intro t ht
    have := hbefore t ht
    simp only [Bool.not_eq_true', decide_eq_false_iff_not, not_and, not_le] at this
    exact this hin.1
  · rw [getNearbyShrine_eq_find, List.find?_eq_none]
    simp only [decide_eq_true_eq]
  · intro hsmall s h t ht
    rw [getNearbyShrine_eq_find] at h
    have hs := List.mem_of_find?_eq_some h
    have hin := List.find?_some h
    simp only [decide_eq_true_eq] at hin
    by_cases hnear : distSq position t < 200
    · exact le_of_eq (same_place_of_both_near calls position s t hs ht
        (lt_of_le_of_lt hin.2 hsmall) hnear)
    · exact le_of_lt (lt_of_lt_of_le (lt_of_le_of_lt hin.2 hsmall) (not_lt.1 hnear))

/-- C29 fails as stated: from the point (-9, 11) with `maxDistance` 16 the
fresh manager returns the Church (id 0, squared distance 242), although the
Well (id 1, squared distance 162) is nearer and also within `maxDistance`. -/
theorem getNearbyShrine_not_nearest :
    ((ShrineManager.new : ShrineManager Nat).getNearbyShrine ⟨-9, 0, 11⟩ 16).map
        (fun s => (s.id, s.name, distSq ⟨-9, 0, 11⟩ s)) = some (0, "Church", 242) ∧
      ∃ t ∈ (ShrineManager.new : ShrineManager Nat).shrines,
        t.id = 1 ∧ t.name = "Well" ∧ distSq (⟨-9, 0, 11⟩ : Vec3) t = 162 ∧
          distSq (⟨-9, 0, 11⟩ : Vec3) t ≤ 16 * 16 := by
  constructor
  · simp [getNearbyShrine, ShrineManager.new, distSq]
    norm_num
  · refine ⟨_, List.mem_cons_of_mem _ (List.mem_cons_self _ _), rfl, rfl, ?_, ?_⟩
    · simp [distSq]
      norm_num
    · simp [distSq]
      norm_num

end ShrineManager

end Procession
